import Mathlib

/-!
# Sonoff S31 firmware: energy-meter decoder, NV store, scheduler

A shallow embedding of `src/cse7759b.cpp` and of the control-plane parts of `src/main.cpp`.

Conventions.
* Machine integers are natural numbers; a `uint8_t`, `uint16_t` or `uint32_t` store or
  increment is written with an explicit `% 256`, `% 65536` or `% 4294967296`.
* The `double` and `float` quantities (voltage, current, power, energy, calibration) are
  rationals: the arithmetic of the source is taken exactly. A quotient by zero, which is an
  infinity or a NaN for the C `double`, has no rational value; the model then follows the
  convention `x / 0 = 0` of the rational field.
* The one narrowing of a `double` to a `float`, the store to `nvLog.power`, is the rounding
  `floatCast`.
* Globals and function-level `static` variables of the firmware are the fields of `Device`.
-/

namespace S31

/-! # Definitions -/

/-! ## Data model (`config.h`, `nvdata.h`, globals of `cse7759b.cpp` and `main.cpp`) -/

/-- The `struct calibration` of `config.h`. -/
structure calibration where
  V : ℚ
  I : ℚ
  P : ℚ

def SCHED_ON_ENABLED : Nat := 0x01
def SCHED_OFF_ENABLED : Nat := 0x02
def SCHED_RANDOM : Nat := 0x04

/-- The `struct schedule` of `config.h`. -/
structure schedule where
  flags : Nat
  h_on : Nat
  m_on : Nat
  h_off : Nat
  m_off : Nat

def CFG_RELAY_ON_BOOT : Nat := 0x01
def CFG_SCHEDULE : Nat := 0x02

/-- The `struct config` of `config.h`. The character arrays are lists of character codes;
`schedule` is the seven-entry array, indexed by weekday. -/
structure config where
  signature : Nat
  hostname : List Nat
  ssid : List Nat
  psk : List Nat
  ntpserver : List Nat
  timezone : List Nat
  calibration : calibration
  flags : Nat
  onDelay : Nat
  schedule : Nat → schedule

/-- The `struct nvLog` of `nvdata.h`. -/
structure nvLog where
  time : Int
  power : ℚ

/-- The `struct nvHeader` of `nvdata.h` (packed, 16 bytes). -/
structure nvHeader where
  version : Nat
  state : Nat
  nvLogFirst : Nat
  nvLogLast : Nat
  ovflow : Nat
  pulses : Nat
  restoredPulses : Nat
  crc : Nat

/-- Modelled from the spec: `states.h` is not among the sources. The spec lists the flags of
the `state` byte (RELAY, DEBOUNCE_TIMEOUT, FRAM_PRESENT, OTA_OR_REBOOT, GOT_IP_ADDRESS,
NTP_GOT_TIME). Each `STATE_*` mask is one distinct bit, so the byte is modelled as one
boolean per flag: `state & STATE_X` reads the field, `state |= STATE_X` sets it. -/
structure StateFlags where
  RELAY : Bool
  DEBOUNCE_TIMEOUT : Bool
  FRAM_PRESENT : Bool
  OTA_OR_REBOOT : Bool
  GOT_IP_ADDRESS : Bool
  NTP_GOT_TIME : Bool

/-- The FRAM. `mem` holds the bytes of the header area (addresses below `NV_LOG_OFFSET`);
`log i` is the `struct nvLog` stored at `NV_LOG_OFFSET + i * sizeof(struct nvLog)`. -/
structure Fram where
  mem : Nat → Nat
  log : Nat → nvLog

/-- The globals of the firmware together with its function-level statics:
`index` (of `readCse7759b`), `lastAdj` (of `processPacket`, `none` until its initialiser
has run), `count` (of `buttonCheck`), `offset_on`, `offset_off`, `wday` (of `checkSchedule`). -/
structure Device where
  cfg : config
  nvHeader : nvHeader
  state : StateFlags
  power : ℚ
  ave_power : ℚ
  ave_count : Nat
  voltage : ℚ
  current : ℚ
  energy : ℚ
  ovflow : Nat
  restoredPulses : Nat
  packet : Nat → Nat
  err : Nat
  index : Nat
  lastAdj : Option Nat
  count : Nat
  offset_on : Int
  offset_off : Int
  wday : Nat
  fram : Fram

/-! ## The CSE7759B decoder (`cse7759b.cpp`) -/

def CSE_ERROR_OK : Nat := 0
def CSE_ERROR_CRC : Nat := 5
def CSE_ERROR_CALIBRATION : Nat := 8
def CSE_ERROR_OTHER : Nat := 99

def H1_POWER_CYCLE_EXCEEDED : Nat := 0x02
def H1_VOLTAGE_CYCLE_EXCEEDED : Nat := 0x08
def H1_ABNORMAL : Nat := 0xF0
def H1_UNCALIBRATED : Nat := 0xAA

def ADJ_POWER_CYCLE_COMPLETE : Nat := 0x10
def ADJ_CURRENT_CYCLE_COMPLETE : Nat := 0x20
def ADJ_VOLTAGE_CYCLE_COMPLETE : Nat := 0x40

/-- The read `packet[i]` of the `uint8_t packet[24]` array. -/
def rd (packet : Nat → Nat) (i : Nat) : Nat := packet i % 256

/-- The function `checkSum`: an `unsigned char` accumulator over `packet[2..22]`, compared
with `packet[23]`. -/
def checkSum (packet : Nat → Nat) : Bool :=
  (List.range' 2 21).foldl (fun cksum i => (cksum + rd packet i) % 256) 0 == rd packet 23

/-- The expression `a << 16 | b << 8 | c` of `processPacket`. -/
def be24 (a b c : Nat) : Nat := a <<< 16 ||| b <<< 8 ||| c

/-- The function `processPacket`. The three quotients by a period (`tV`, `tP`, `tI`) are
exact; a frame whose period is zero makes the source produce an infinity or a NaN, which
has no counterpart here (the quotient is then `0`). -/
def processPacket (d : Device) : Device :=
  let packet := d.packet
  if !checkSum packet then { d with err := CSE_ERROR_CRC }
  else if rd packet 0 == H1_UNCALIBRATED then { d with err := CSE_ERROR_CALIBRATION }
  else
    let kV := be24 (rd packet 2) (rd packet 3) (rd packet 4)
    let kI := be24 (rd packet 8) (rd packet 9) (rd packet 10)
    let kP := be24 (rd packet 14) (rd packet 15) (rd packet 16)
    let adj := rd packet 20
    let lastAdj := d.lastAdj.getD adj % 256
    let voltage : ℚ :=
      if !((rd packet 0 &&& H1_ABNORMAL != 0) && (rd packet 0 &&& H1_VOLTAGE_CYCLE_EXCEEDED != 0))
          && (adj &&& ADJ_VOLTAGE_CYCLE_COMPLETE != 0) then
        let tV := be24 (rd packet 5) (rd packet 6) (rd packet 7)
        d.cfg.calibration.V * ((kV : ℚ) * 1) / (tV : ℚ)
      else 0
    let powerOk : Bool :=
      !((rd packet 0 &&& H1_ABNORMAL != 0) && (rd packet 0 &&& H1_POWER_CYCLE_EXCEEDED != 0))
        && (adj &&& ADJ_POWER_CYCLE_COMPLETE != 0)
    let power : ℚ :=
      if powerOk then
        let tP := be24 (rd packet 17) (rd packet 18) (rd packet 19)
        d.cfg.calibration.P * ((kP : ℚ) * 1) / ((tP : ℚ) * 1)
      else 0
    let current : ℚ :=
      if powerOk && (adj &&& ADJ_CURRENT_CYCLE_COMPLETE != 0) then
        let tI := be24 (rd packet 11) (rd packet 12) (rd packet 13)
        d.cfg.calibration.I * (kI : ℚ) / ((tI : ℚ) * 1)
      else 0
    let CFpulses := (rd packet 21 <<< 8 ||| rd packet 22) % 65536
    let Fcf : ℚ := 1000000000 / (kP : ℚ)
    let toggled : Bool := (adj &&& 0x80) != (lastAdj &&& 0x80)
    let ovflow := if toggled then (d.ovflow + 1) % 4294967296 else d.ovflow
    let lastAdj := if toggled then adj else lastAdj
    let nvHeader :=
      if d.state.FRAM_PRESENT then { d.nvHeader with ovflow := ovflow, pulses := CFpulses }
      else d.nvHeader
    { d with
      voltage := voltage, power := power, current := current,
      lastAdj := some lastAdj, ovflow := ovflow, nvHeader := nvHeader,
      energy := ((ovflow : ℚ) * 65536 + (CFpulses : ℚ) + (d.restoredPulses : ℚ)) / (Fcf * 3600) }

/-- The receive loop of `readCse7759b`: consumes the bytes available on the serial port and
returns the new `index`, the new `packet` and the bytes left unread. `Serial.flush()` waits
for the transmitter and leaves the receive queue alone. -/
def drain (index : Nat) (packet : Nat → Nat) : List Nat → Nat × (Nat → Nat) × List Nat
  | [] => (index, packet, [])
  | b :: rest =>
    let input := b % 256
    if index = 0 ∧ (input ≠ 0x55 ∧ input < 0xF0) then drain index packet rest
    else if index = 1 ∧ input ≠ 0x5A then drain 0 packet rest
    else
      let packet1 := fun i => if i = index then input else packet i
      let index1 := (index + 1) % 256
      if index1 > 23 then (index1, packet1, rest) else drain index1 packet1 rest

/-- The function `readCse7759b`, called with the bytes available on the serial port; returns
the new device state and the bytes left in the receive queue. -/
def readCse7759b (d : Device) (serial : List Nat) : Device × List Nat :=
  let r := drain d.index d.packet serial
  let d1 := { d with err := CSE_ERROR_OTHER, index := r.1, packet := r.2.1 }
  let d2 :=
    if d1.index = 24 then { processPacket { d1 with err := CSE_ERROR_OK } with index := 0 }
    else d1
  let d3 :=
    if d2.state.FRAM_PRESENT then
      { d2 with ave_power := d2.ave_power + d2.power, ave_count := (d2.ave_count + 1) % 256 }
    else d2
  (d3, r.2.2)

/-- A run of `readCse7759b` calls; `chunks` lists the bytes that arrive before each call, which
join the bytes the previous call left unread. -/
def runCse (d : Device) (pending : List Nat) : List (List Nat) → Device × List Nat
  | [] => (d, pending)
  | c :: cs =>
    let r := readCse7759b d (pending ++ c)
    runCse r.1 r.2 cs

/-- The test of `readCse7759b` at `index == 0`: the byte is kept when it is `0x55` or at
least `0xF0`. -/
def sync0 (b : Nat) : Prop := b = 0x55 ∨ 0xF0 ≤ b

/-- The state of the statics and globals at reset, before `setup` runs: zero-initialised
globals, `index = 0`, `count = 0`, `wday = 8`, `lastAdj` not yet initialised. -/
def initDevice : Device :=
  { cfg :=
      { signature := 0, hostname := List.replicate 32 0, ssid := List.replicate 64 0,
        psk := List.replicate 64 0, ntpserver := List.replicate 64 0,
        timezone := List.replicate 32 0, calibration := { V := 0, I := 0, P := 0 },
        flags := 0, onDelay := 0,
        schedule := fun _ => { flags := 0, h_on := 0, m_on := 0, h_off := 0, m_off := 0 } },
    nvHeader :=
      { version := 0, state := 0, nvLogFirst := 0, nvLogLast := 0, ovflow := 0, pulses := 0,
        restoredPulses := 0, crc := 0 },
    state :=
      { RELAY := false, DEBOUNCE_TIMEOUT := false, FRAM_PRESENT := false,
        OTA_OR_REBOOT := false, GOT_IP_ADDRESS := false, NTP_GOT_TIME := false },
    power := 0, ave_power := 0, ave_count := 0, voltage := 0, current := 0, energy := 0,
    ovflow := 0, restoredPulses := 0, packet := fun _ => 0, err := 0, index := 0,
    lastAdj := none, count := 0, offset_on := 0, offset_off := 0, wday := 8,
    fram := { mem := fun _ => 0, log := fun _ => { time := 0, power := 0 } } }

/-! ## Decoder: framing and checksum gate -/

/-- The invariant of the receive buffer between calls of `readCse7759b`. -/
def FrameInv (index : Nat) (packet : Nat → Nat) : Prop :=
  (1 ≤ index → sync0 (rd packet 0)) ∧ (2 ≤ index → rd packet 1 = 0x5A)

/-- The measurement globals that a decoded frame updates. -/
def sameReadings (a b : Device) : Prop :=
  a.voltage = b.voltage ∧ a.current = b.current ∧ a.power = b.power ∧ a.energy = b.energy ∧
    a.ovflow = b.ovflow

/-- First stage of `readCse7759b`: `err = CSE_ERROR_OTHER` and the receive loop. -/
def receive (d : Device) (serial : List Nat) : Device :=
  { d with err := CSE_ERROR_OTHER, index := (drain d.index d.packet serial).1,
           packet := (drain d.index d.packet serial).2.1 }

/-- Second stage of `readCse7759b`: the block `if (index == 24)`. -/
def decode (d : Device) : Device :=
  if d.index = 24 then { processPacket { d with err := CSE_ERROR_OK } with index := 0 } else d

/-- Third stage of `readCse7759b`: the block `if (state & STATE_FRAM_PRESENT)`. -/
def accumulate (d : Device) : Device :=
  if d.state.FRAM_PRESENT then
    { d with ave_power := d.ave_power + d.power, ave_count := (d.ave_count + 1) % 256 }
  else d

/-- A framed 24-byte packet (sync bytes `55 5A`, payload bytes 2..22, checksum `0x01`). -/
def sampleFrame : List Nat :=
  [0x55, 0x5A, 0x00, 0x00, 0xF0, 0x00, 0x00, 0x10, 0x00, 0x00, 0x80, 0x00, 0x00, 0x20,
   0x00, 0x50, 0x60, 0x00, 0x00, 0x40, 0x70, 0x00, 0x01, 0x01]

/-- The packet `sampleFrame` with its last byte corrupted. -/
def corruptFrame : List Nat := sampleFrame.take 23 ++ [0x02]

/-! ## Decoder: derived readings -/

/-- The big-endian 24-bit value of `packet[i..i+2]`. -/
def field24 (packet : Nat → Nat) (i : Nat) : Nat :=
  rd packet i * 65536 + rd packet (i + 1) * 256 + rd packet (i + 2)

/-- The big-endian 16-bit value of `packet[i..i+1]`. -/
def field16 (packet : Nat → Nat) (i : Nat) : Nat := rd packet i * 256 + rd packet (i + 1)

/-- A device whose receive buffer holds the bytes of `l`. -/
def loadPacket (d : Device) (l : List Nat) : Device := { d with packet := fun i => l.getD i 0 }

/-- The reset state with calibration `(1, 1, 1)` and `sampleFrame` in the receive buffer. -/
def sampleDevice : Device :=
  loadPacket
    { initDevice with cfg := { initDevice.cfg with calibration := { V := 1, I := 1, P := 1 } } }
    sampleFrame

/-! ## Decoder: pulse-counter overflow and energy -/

/-- The toggle test of `processPacket` on a device whose buffer holds the frame: bit 7 of
`packet[20]` against bit 7 of `lastAdj` (which is `packet[20]` itself when the static has
not been initialised yet). -/
def toggled (d : Device) : Bool :=
  (rd d.packet 20).testBit 7 != (d.lastAdj.getD (rd d.packet 20) % 256).testBit 7

/-- One frame through the decoder: the receive buffer holds `f` and `processPacket` runs. -/
def feed (d : Device) (f : Nat → Nat) : Device := processPacket { d with packet := f }

/-- A sequence of frames passed through `processPacket`, in order. -/
def processFrames (d : Device) : List (Nat → Nat) → Device
  | [] => d
  | f :: fs => processFrames (feed d f) fs

/-- Bit 7 of byte 20 of a frame (the pulse-counter overflow toggle). -/
def adjBit7 (f : Nat → Nat) : Bool := (rd f 20).testBit 7

/-- Number of frames of the list whose bit 7 of byte 20 differs from that of the frame before
it, the frame before the head having the bit `prev`. -/
def togglesFrom (prev : Bool) : List (Nat → Nat) → Nat
  | [] => 0
  | f :: fs => (if adjBit7 f ≠ prev then 1 else 0) + togglesFrom (adjBit7 f) fs

/-- Number of frames, other than the first, whose bit 7 of byte 20 differs from that of the
preceding frame. -/
def toggles : List (Nat → Nat) → Nat
  | [] => 0
  | f :: fs => togglesFrom (adjBit7 f) fs

/-- The frame whose bytes are those of `l`. -/
def frameOf (l : List Nat) : Nat → Nat := fun i => l.getD i 0

/-- The packet `sampleFrame` with bit 7 of byte 20 set (and the checksum adjusted). -/
def sampleFrameHi : List Nat := (sampleFrame.take 20) ++ [0xF0, 0x00, 0x01, 0x81]

/-- The reset state with `sampleFrameHi` in the buffer, the overflow bit last seen clear. -/
def sampleDeviceHi : Device := loadPacket { initDevice with lastAdj := some 0x70 } sampleFrameHi

/-! ## The NV store (`main.cpp`: `nvInit`, `saveNvHeader`, `saveNvLog`, `handleNvData`) -/

def NVVERSION : Nat := 1
def NV_HEADER_OFFSET : Nat := 0
def NV_LOG_OFFSET : Nat := 128

/-- The macro `NV_LOG_MAX`, as a function of `sizeof(struct nvLog)`. -/
def NV_LOG_MAX (sizeofNvLog : Nat) : Nat := (32768 - 128) / sizeofNvLog

/-- The bytes of a `uint16_t` in memory (little-endian, as on the ESP8266). -/
def u16le (n : Nat) : List Nat := [n % 256, n / 256 % 256]

/-- The bytes of a `uint32_t` in memory (little-endian). -/
def u32le (n : Nat) : List Nat := [n % 256, n / 256 % 256, n / 65536 % 256, n / 16777216 % 256]

/-- The 16 bytes of the packed `struct nvHeader` in memory: what `(uint8_t *)&nvHeader`
points to. -/
def headerBytes (h : nvHeader) : List Nat :=
  [h.version % 256, h.state % 256] ++ u16le h.nvLogFirst ++ u16le h.nvLogLast ++
    u32le h.ovflow ++ u16le h.pulses ++ u16le h.restoredPulses ++ u16le h.crc

/-- The `struct nvHeader` whose memory holds the given 16 bytes. -/
def headerOfBytes (b : List Nat) : nvHeader :=
  { version := b.getD 0 0,
    state := b.getD 1 0,
    nvLogFirst := b.getD 2 0 + 256 * b.getD 3 0,
    nvLogLast := b.getD 4 0 + 256 * b.getD 5 0,
    ovflow := b.getD 6 0 + 256 * b.getD 7 0 + 65536 * b.getD 8 0 + 16777216 * b.getD 9 0,
    pulses := b.getD 10 0 + 256 * b.getD 11 0,
    restoredPulses := b.getD 12 0 + 256 * b.getD 13 0,
    crc := b.getD 14 0 + 256 * b.getD 15 0 }

/-- The call `fram.read(addr, buf, len)` on the header area. -/
def framRead (fram : Fram) (addr : Nat) : Nat → List Nat
  | 0 => []
  | len + 1 => fram.mem addr % 256 :: framRead fram (addr + 1) len

/-- The call `fram.write(addr, buf, len)` on the header area. -/
def framWrite (fram : Fram) (addr : Nat) (bytes : List Nat) : Fram :=
  { fram with
    mem := fun a =>
      if addr ≤ a ∧ a < addr + bytes.length then bytes.getD (a - addr) 0 % 256 else fram.mem a }

/-- One byte step of the bitwise CRC-16 with polynomial `0x1021`. -/
def crcStep (crc byte : Nat) : Nat :=
  (List.range 8).foldl
    (fun c _ => if c &&& 0x8000 ≠ 0 then ((c <<< 1) ^^^ 0x1021) % 65536 else (c <<< 1) % 65536)
    (crc ^^^ (byte % 256) <<< 8)

/-- Modelled from the spec: the FastCRC library (`FastCRC16::ccitt`) is not among the
sources. The spec names the checksum CRC-16/CCITT: polynomial `0x1021`, initial value
`0xFFFF`, no reflection, no final xor. The functions of the NV store below take the CRC
routine as the parameter `crc16`; this definition is the instance used on concrete data. -/
def ccitt (data : List Nat) : Nat := data.foldl crcStep 0xFFFF

/-- The function `saveNvHeader`. -/
def saveNvHeader (crc16 : List Nat → Nat) (d : Device) : Device :=
  let h := { d.nvHeader with crc := crc16 ((headerBytes d.nvHeader).take (16 - 2)) % 65536 }
  { d with nvHeader := h, fram := framWrite d.fram NV_HEADER_OFFSET (headerBytes h) }

/-- The function `nvInit`. -/
def nvInit (crc16 : List Nat → Nat) (d : Device) : Device :=
  let hdr := headerOfBytes (framRead d.fram 0 16)
  let crc := crc16 ((headerBytes hdr).take (16 - 2)) % 65536
  if hdr.version ≠ NVVERSION ∨ hdr.crc ≠ crc then
    saveNvHeader crc16
      { d with
        nvHeader :=
          { version := NVVERSION, state := 0, nvLogFirst := 0, nvLogLast := 0, ovflow := 0,
            pulses := 0, restoredPulses := 0, crc := crc } }
  else { d with nvHeader := hdr }

/-- The quotient `A / B` rounded to the nearest integer, a tie to the even neighbour. -/
def roundEven (A B : Nat) : Nat :=
  if 2 * (A % B) < B then A / B
  else if B < 2 * (A % B) then A / B + 1
  else if A / B % 2 = 0 then A / B
  else A / B + 1

/-- Position of the leading binary digit of `n` (`0` for `n < 2`), `fuel` halvings allowed. -/
def log2Fuel : Nat → Nat → Nat
  | 0, _ => 0
  | fuel + 1, n => if n < 2 then 0 else log2Fuel fuel (n / 2) + 1

/-- The integer part of the binary logarithm of `n`. -/
def ilog2 (n : Nat) : Nat := log2Fuel n n

/-- The binary exponent of the positive fraction `n / d`: the `e` with
`2 ^ e ≤ n / d < 2 ^ (e + 1)`. -/
def floatExp (n d : Nat) : Int :=
  if d ≤ n then (ilog2 (n / d) : Int) else -((ilog2 ((d - 1) / n) : Int) + 1)

/-- The scale of the `float` nearest to `n / d`: the value is a multiple of `2 ^ (-k)` for
`k = 23 - max e (-126)` (24 significant bits, least exponent `-126`). -/
def floatShift (n d : Nat) : Int := 23 - max (floatExp n d) (-126)

/-- The significand of the `float` nearest to `n / d`, in units of `2 ^ (-floatShift n d)`. -/
def floatMant (n d : Nat) : Nat :=
  if 0 ≤ floatShift n d then roundEven (n * 2 ^ (floatShift n d).toNat) d
  else roundEven n (d * 2 ^ (-floatShift n d).toNat)

/-- The conversion of a `double` to `float` that the assignments to `nvLog.power` perform:
the IEEE 754 binary32 value nearest to `q`, a tie to the even significand. A magnitude that
rounds beyond `FLT_MAX`, which the conversion takes to an infinity, has no counterpart
here. -/
def floatCast (q : ℚ) : ℚ :=
  if q < 0 then -((floatMant q.num.natAbs q.den : ℚ) / 2 ^ floatShift q.num.natAbs q.den)
  else (floatMant q.num.natAbs q.den : ℚ) / 2 ^ floatShift q.num.natAbs q.den

/-- The function `saveNvLog`, for a ring of `N = NV_LOG_MAX` entries, called at wall-clock
time `now`. -/
def saveNvLog (crc16 : List Nat → Nat) (N : Nat) (now : Int) (d : Device) : Device :=
  if d.state.NTP_GOT_TIME then
    let entry : nvLog :=
      { time := now,
        power :=
          if d.ave_count ≠ 0 then floatCast (d.ave_power / (d.ave_count : ℚ))
          else floatCast d.power }
    let fram := { d.fram with log := fun i => if i = d.nvHeader.nvLogLast then entry else d.fram.log i }
    let last := (d.nvHeader.nvLogLast + 1) % 65536 % N
    let first :=
      if last = d.nvHeader.nvLogFirst then (d.nvHeader.nvLogFirst + 1) % 65536 % N
      else d.nvHeader.nvLogFirst
    saveNvHeader crc16
      { d with
        ave_power := d.power, ave_count := 1, fram := fram,
        nvHeader := { d.nvHeader with nvLogLast := last, nvLogFirst := first } }
  else d

/-- The read-out loop of `handleNvData` from iteration `i` on, with `fuel` iterations left
before `i` reaches `NV_LOG_MAX`: the entries read from the FRAM, in order. -/
def readLoop (N : Nat) (d : Device) (i : Nat) : Nat → List nvLog
  | 0 => []
  | fuel + 1 =>
    if (i + d.nvHeader.nvLogFirst) % N = d.nvHeader.nvLogLast then []
    else d.fram.log ((i + d.nvHeader.nvLogFirst) % N) :: readLoop N d (i + 1) fuel

/-- The entries that `handleNvData` reads (and prints, one line each). -/
def handleNvData (N : Nat) (d : Device) : List nvLog := readLoop N d 0 N

/-- The NV part of `handleReboot`: the header is flushed when the FRAM is present. -/
def handleReboot (crc16 : List Nat → Nat) (d : Device) : Device :=
  let d1 := { d with state := { d.state with OTA_OR_REBOOT := true } }
  if d1.state.FRAM_PRESENT then saveNvHeader crc16 d1 else d1

/-- The part of `setup` that restores the counters (from `restoredPulses = 0` to the end of
the FRAM block). `framOk` is the result of `fram.begin(0x50) == FRAM_OK`, `powerOn` that of
`ESP.getResetInfoPtr()->reason == REASON_DEFAULT_RST`. -/
def setup (crc16 : List Nat → Nat) (framOk powerOn : Bool) (d : Device) : Device :=
  let d0 := { d with restoredPulses := 0, ovflow := 0 }
  if framOk then
    let d1 := nvInit crc16 { d0 with state := { d0.state with FRAM_PRESENT := true } }
    let d2 := { d1 with ovflow := d1.nvHeader.ovflow, restoredPulses := d1.nvHeader.restoredPulses }
    if powerOn then
      let d3 :=
        { d2 with restoredPulses := (d2.nvHeader.restoredPulses + d2.nvHeader.pulses) % 65536 }
      let d4 :=
        if d3.restoredPulses < d3.nvHeader.restoredPulses then
          { d3 with
            ovflow := (d3.ovflow + 1) % 4294967296,
            nvHeader := { d3.nvHeader with ovflow := (d3.ovflow + 1) % 4294967296 } }
        else d3
      { d4 with nvHeader := { d4.nvHeader with restoredPulses := d4.restoredPulses } }
    else d2
  else d0

/-! ## NV store: header integrity -/

/-- A header is valid when its version is `NVVERSION` and its `crc` field is the CRC of the
bytes before it: the negation of the test of `nvInit`. -/
def headerValid (crc16 : List Nat → Nat) (hdr : nvHeader) : Prop :=
  hdr.version = NVVERSION ∧ hdr.crc = crc16 ((headerBytes hdr).take (16 - 2)) % 65536

/-- The header image at FRAM offset 0 carries the CRC of its first `sizeof(nvHeader) - 2`
bytes in its last two bytes. -/
def crcOk (crc16 : List Nat → Nat) (fram : Fram) : Prop :=
  crc16 ((framRead fram 0 16).take (16 - 2)) % 65536 = (headerOfBytes (framRead fram 0 16)).crc

/-- The header that `nvInit` builds for a fresh device, before `saveNvHeader` sets its `crc`:
everything zero except `version`. -/
def zeroedHeader : nvHeader :=
  { version := NVVERSION, state := 0, nvLogFirst := 0, nvLogLast := 0, ovflow := 0, pulses := 0,
    restoredPulses := 0, crc := 0 }

/-- The zeroed header with the CRC of its first 14 bytes in `crc`. -/
def freshHeader (crc16 : List Nat → Nat) : nvHeader :=
  { zeroedHeader with crc := crc16 ((headerBytes zeroedHeader).take (16 - 2)) % 65536 }

/-! ## Boot recovery of the pulse counters -/

/-- A device at power-on whose FRAM holds the header
`{version = 1, ovflow = 5, pulses = 60000, restoredPulses = 10000}` as flushed by
`saveNvHeader` before the power was cut. -/
def coldBootDevice : Device :=
  { initDevice with
    fram :=
      (saveNvHeader ccitt
        { initDevice with
          nvHeader :=
            { version := 1, state := 0, nvLogFirst := 0, nvLogLast := 0, ovflow := 5,
              pulses := 60000, restoredPulses := 10000, crc := 0 } }).fram }

/-- A device with the clock set by NTP and the FRAM present. -/
def runningDevice : Device :=
  { initDevice with
    state := { initDevice.state with NTP_GOT_TIME := true, FRAM_PRESENT := true } }

/-! ## NV store: the log ring -/

/-- The inputs of one log append: the wall-clock time and the measurement globals as the
decoder left them when `saveNvLog` is called. -/
structure Sample where
  now : Int
  power : ℚ
  ave_power : ℚ
  ave_count : Nat

/-- The entry that `saveNvLog` builds from these inputs. -/
def logEntry (x : Sample) : nvLog :=
  { time := x.now,
    power :=
      if x.ave_count ≠ 0 then floatCast (x.ave_power / (x.ave_count : ℚ))
      else floatCast x.power }

/-- One log append: `saveNvLog` called at time `x.now` with the measurement globals of `x`. -/
def appendAt (crc16 : List Nat → Nat) (N : Nat) (d : Device) (x : Sample) : Device :=
  saveNvLog crc16 N x.now
    { d with power := x.power, ave_power := x.ave_power, ave_count := x.ave_count }

/-- A sequence of log appends. -/
def appendLogs (crc16 : List Nat → Nat) (N : Nat) (d : Device) (xs : List Sample) : Device :=
  xs.foldl (appendAt crc16 N) d

/-- The state of the ring after the entries `es` have been appended to an empty ring. -/
def RingInv (N : Nat) (d : Device) (es : List nvLog) : Prop :=
  d.state.NTP_GOT_TIME = true ∧
    d.nvHeader.nvLogLast = es.length % N ∧
    d.nvHeader.nvLogFirst = (if es.length < N then 0 else (es.length + 1) % N) ∧
    ∀ i, i < es.length → es.length < i + N → es[i]? = some (d.fram.log (i % N))

/-- Number of entries that the read-out yields after `k` appends: all of them while the
ring has not wrapped, `N - 1` afterwards. -/
def retained (N k : Nat) : Nat := if k < N then k else N - 1

/-- The sample taken at time `t` with one accumulated reading of `w` watts. -/
def sampleAt (t : Int) (w : ℚ) : Sample := { now := t, power := w, ave_power := w, ave_count := 1 }

/-! ## The scheduler (`main.cpp`: `checkSchedule`) -/

/-- The fields of `struct tm` that `checkSchedule` reads. -/
structure tm where
  tm_wday : Nat
  tm_hour : Nat
  tm_min : Nat
  deriving DecidableEq

/-- The inputs of one call of `checkSchedule`: the wall-clock time `time(NULL)` and the next
two outputs of `drand48()`, which the call consumes only when it redraws the offsets. -/
structure Tick where
  t : Int
  u1 : ℚ
  u2 : ℚ

/-- The function `checkSchedule`; `localtime` is the C library conversion for the configured
timezone. -/
def checkSchedule (localtime : Int → tm) (x : Tick) (d : Device) : Device :=
  if d.cfg.flags &&& CFG_SCHEDULE = 0 then d
  else
    let tm0 := localtime x.t
    let d1 :=
      if d.wday ≠ tm0.tm_wday then
        { d with
          offset_on := Int.floor (x.u1 * 1800 - 900),
          offset_off := Int.floor (x.u2 * 1800 - 900),
          wday := tm0.tm_wday % 256 }
      else d
    let random : Bool := (d1.cfg.schedule tm0.tm_wday).flags &&& SCHED_RANDOM != 0
    let t1 := x.t + d1.offset_on
    let tm_on := if random then localtime t1 else tm0
    let tm_off := if random then localtime (t1 + (d1.offset_off - d1.offset_on)) else tm0
    let sch := d1.cfg.schedule d1.wday
    if !d1.state.RELAY && (sch.flags &&& SCHED_ON_ENABLED != 0) && tm_on.tm_hour == sch.h_on
        && tm_on.tm_min == sch.m_on then
      { d1 with state := { d1.state with RELAY := true } }
    else if d1.state.RELAY && (sch.flags &&& SCHED_OFF_ENABLED != 0)
        && tm_off.tm_hour == sch.h_off && tm_off.tm_min == sch.m_off then
      { d1 with state := { d1.state with RELAY := false } }
    else d1

/-- The relay flag after each tick of a run of `checkSchedule` calls (nothing else writes
the flag in between). -/
def relayAfter (localtime : Int → tm) (d : Device) : List Tick → List Bool
  | [] => []
  | x :: xs =>
    (checkSchedule localtime x d).state.RELAY ::
      relayAfter localtime (checkSchedule localtime x d) xs

/-- The device after a run of `checkSchedule` calls, one per tick (nothing else writes the
statics or the relay flag in between). -/
def scheduleRun (localtime : Int → tm) (d : Device) : List Tick → Device
  | [] => d
  | x :: xs => scheduleRun localtime (checkSchedule localtime x d) xs

/-- Number of off-to-on transitions in a sequence of relay flags that follows the flag
`prev`. -/
def risingFrom (prev : Bool) : List Bool → Nat
  | [] => 0
  | b :: rest => (if prev = false ∧ b = true then 1 else 0) + risingFrom b rest

/-- Number of on-to-off transitions in a sequence of relay flags that follows the flag
`prev`. -/
def fallingFrom (prev : Bool) : List Bool → Nat
  | [] => 0
  | b :: rest => (if prev = true ∧ b = false then 1 else 0) + fallingFrom b rest

/-- The conversion `localtime` for the timezone UTC (1970-01-01 was a Thursday). -/
def utc (t : Int) : tm :=
  { tm_wday := ((t / 86400 + 4) % 7).toNat,
    tm_hour := (t / 3600 % 24).toNat,
    tm_min := (t / 60 % 60).toNat }

/-- The relay decision of `checkSchedule` when the on-condition is `a` and the
off-condition is `b`. -/
def relayStep (a b r : Bool) : Bool := if !r && a then true else if r && b then false else r

/-- The on-condition of the plain (not randomised) schedule entry at local time `m`. -/
def onMatch (sch : schedule) (m : tm) : Bool :=
  (sch.flags &&& SCHED_ON_ENABLED != 0) && m.tm_hour == sch.h_on && m.tm_min == sch.m_on

/-- The off-condition of the plain schedule entry at local time `m`. -/
def offMatch (sch : schedule) (m : tm) : Bool :=
  (sch.flags &&& SCHED_OFF_ENABLED != 0) && m.tm_hour == sch.h_off && m.tm_min == sch.m_off

/-- The offset that `checkSchedule` draws from the `drand48()` output `u`:
`floor(u * 1800.0 - 900)`. -/
def drawOffset (u : ℚ) : Int := Int.floor (u * 1800 - 900)

/-- The redraw stage of `checkSchedule`: the block `if (wday != tm_off->tm_wday)`. -/
def redraw (tm0 : tm) (x : Tick) (d : Device) : Device :=
  if d.wday ≠ tm0.tm_wday then
    { d with
      offset_on := Int.floor (x.u1 * 1800 - 900),
      offset_off := Int.floor (x.u2 * 1800 - 900),
      wday := tm0.tm_wday % 256 }
  else d

/-- The last stage of `checkSchedule`, with on-condition `a` and off-condition `b` (the
relay flag apart). -/
def switchRelay (a b : Bool) (d : Device) : Device :=
  if !d.state.RELAY && a then { d with state := { d.state with RELAY := true } }
  else if d.state.RELAY && b then { d with state := { d.state with RELAY := false } }
  else d

/-- A device with the schedule enabled whose every day has on-time and off-time `00:00`,
both enabled, randomize clear; relay off. -/
def oscDevice : Device :=
  { initDevice with
    cfg :=
      { initDevice.cfg with
        flags := CFG_SCHEDULE,
        schedule := fun _ =>
          { flags := SCHED_ON_ENABLED ||| SCHED_OFF_ENABLED, h_on := 0, m_on := 0, h_off := 0,
            m_off := 0 } } }

/-- Three consecutive one-second ticks, at 00:00:00, 00:00:01 and 00:00:02 UTC of a
Thursday. -/
def oscTicks : List Tick := [{ t := 0, u1 := 0, u2 := 0 }, { t := 1, u1 := 0, u2 := 0 },
  { t := 2, u1 := 0, u2 := 0 }]

/-- A device with the schedule enabled, Thursday on at 08:00 and off at 22:00, randomize
clear; relay off. -/
def plainDevice : Device :=
  { initDevice with
    cfg :=
      { initDevice.cfg with
        flags := CFG_SCHEDULE,
        schedule := fun _ =>
          { flags := SCHED_ON_ENABLED ||| SCHED_OFF_ENABLED, h_on := 8, m_on := 0, h_off := 22,
            m_off := 0 } } }

/-- A device at reset with the schedule enabled and, for every day, the on-time 08:00
enabled with the randomize bit set. -/
def rndDevice : Device :=
  { initDevice with
    cfg :=
      { initDevice.cfg with
        flags := CFG_SCHEDULE,
        schedule := fun _ =>
          { flags := SCHED_ON_ENABLED ||| SCHED_RANDOM, h_on := 8, m_on := 0, h_off := 0,
            m_off := 0 } } }

/-- The device `rndDevice` after the first tick of Thursday 1970-01-01, at 00:00:00 UTC,
`drand48()` having returned 0 for both offsets. -/
def rndDay : Device := checkSchedule utc { t := 0, u1 := 0, u2 := 0 } rndDevice

/-- The first tick of Thursday 1970-01-01, at 00:00:00 UTC, `drand48()` returning 0 twice. -/
def dayStart : Tick := { t := 0, u1 := 0, u2 := 0 }

/-- A Thursday state with the on-time 23:50 enabled and randomised, the offset of the day
being `-900 s`; relay off. -/
def lateDevice : Device :=
  { initDevice with
    cfg :=
      { initDevice.cfg with
        flags := CFG_SCHEDULE,
        schedule := fun _ =>
          { flags := SCHED_ON_ENABLED ||| SCHED_RANDOM, h_on := 23, m_on := 50, h_off := 0,
            m_off := 0 } },
    wday := 4, offset_on := -900, offset_off := 0 }

/-! ## Scheduler: a day with offsets -/

/-- A Thursday state of a device with the schedule enabled and, for every day, on 08:00
enabled, off 22:00 enabled, randomize set; the offsets of the day are `-300 s` (on) and
`+600 s` (off); relay off. -/
def jitterDevice : Device :=
  { initDevice with
    cfg :=
      { initDevice.cfg with
        flags := CFG_SCHEDULE,
        schedule := fun _ =>
          { flags := SCHED_ON_ENABLED ||| SCHED_OFF_ENABLED ||| SCHED_RANDOM, h_on := 8,
            m_on := 0, h_off := 22, m_off := 0 } },
    wday := 4, offset_on := -300, offset_off := 600 }

/-- The device `jitterDevice` with the relay on. -/
def jitterDeviceOn : Device :=
  { jitterDevice with state := { jitterDevice.state with RELAY := true } }

/-! ## Button and relay (`main.cpp`: `buttonCheck`, `resetConfig`) -/

def BUTTON_PERIOD : Nat := 100
def BUTTON_TIMEOUT : Nat := 10
def SIGNATURE : Nat := 0x1a2b3b4e

/-- The call `strcpy(dst, src)` for a source string without NUL: the characters of `src`,
a NUL, then the rest of `dst`. -/
def strcpy (dst src : List Nat) : List Nat := src ++ [0] ++ dst.drop (src.length + 1)

/-- The configuration that `resetConfig` builds: all zero, then `ssid = psk = "none"`,
`hostname = "S31"`, `timezone = "EST5EDT,M3.2.0,M11.1.0"`, calibration
`(1.01, 0.995, 1.00)` and the signature. -/
def factoryConfig : config :=
  { signature := SIGNATURE,
    hostname := strcpy (List.replicate 32 0) [0x53, 0x33, 0x31],
    ssid := strcpy (List.replicate 64 0) [0x6E, 0x6F, 0x6E, 0x65],
    psk := strcpy (List.replicate 64 0) [0x6E, 0x6F, 0x6E, 0x65],
    ntpserver := List.replicate 64 0,
    timezone := strcpy (List.replicate 32 0)
      [0x45, 0x53, 0x54, 0x35, 0x45, 0x44, 0x54, 0x2C, 0x4D, 0x33, 0x2E, 0x32, 0x2E, 0x30,
       0x2C, 0x4D, 0x31, 0x31, 0x2E, 0x31, 0x2E, 0x30],
    calibration := { V := 101 / 100, I := 995 / 1000, P := 1 },
    flags := 0, onDelay := 0,
    schedule := fun _ => { flags := 0, h_on := 0, m_on := 0, h_off := 0, m_off := 0 } }

/-- The function `resetConfig` (the EEPROM copy is not part of the model). -/
def resetConfig (d : Device) : Device := { d with cfg := factoryConfig }

/-- The function `buttonCheck`, called with the level read from the button pin
(`false` is LOW, pressed; `true` is HIGH, released). Returns the new state and whether
`resetConfig()` was called. The static `count` is an `int`; the model counts without
wrap-around (it takes `2^31` consecutive pressed samples to overflow it). -/
def buttonCheck (button : Bool) (d : Device) : Device × Bool :=
  let count := if !button then d.count + 1 else 0
  let reset : Bool := !button && decide (count ≥ BUTTON_TIMEOUT * 1000 / BUTTON_PERIOD)
  let d1 := if reset then resetConfig { d with count := count } else { d with count := count }
  let d2 :=
    if !button && d1.state.DEBOUNCE_TIMEOUT then
      { d1 with state := { d1.state with RELAY := !d1.state.RELAY, DEBOUNCE_TIMEOUT := false } }
    else if button then { d1 with state := { d1.state with DEBOUNCE_TIMEOUT := true } }
    else d1
  (d2, reset)

/-- The state after a sequence of button samples, one `buttonCheck` call each. -/
def buttonRun (d : Device) (samples : List Bool) : Device :=
  samples.foldl (fun s b => (buttonCheck b s).1) d

/-- For each sample of the sequence, whether its `buttonCheck` call invoked
`resetConfig`. -/
def resetTrace (d : Device) : List Bool → List Bool
  | [] => []
  | b :: bs => (buttonCheck b d).2 :: resetTrace (buttonCheck b d).1 bs

/-- The reset state after one released sample: `DEBOUNCE_TIMEOUT` set, relay off. -/
def armedDevice : Device := (buttonCheck true initDevice).1

/-! ## Firmware update start (`main.cpp`: the `ArduinoOTA.onStart` handler of `setup`) -/

/-- The update command `U_FLASH` of the Arduino core. -/
def U_FLASH : Nat := 0

/-- The update command `U_FS` of the Arduino core. -/
def U_FS : Nat := 100

/-- A statement of a `switch` body: `break`, or a statement with an effect on the device. -/
inductive SwitchStmt where
  | brk : SwitchStmt
  | run : (Device → Device) → SwitchStmt

/-- Execution of the statements of a `switch` body from an entry point on, up to the first
`break` or the end of the body. -/
def runSwitch : List SwitchStmt → Device → Device
  | [], d => d
  | SwitchStmt.brk :: _, d => d
  | SwitchStmt.run f :: rest, d => runSwitch rest (f d)

/-- The body of the `switch (ArduinoOTA.getCommand())` of the handler, statement by
statement: `break;` (after `case U_FLASH:`), `LittleFS.end(); break;` (after `case U_FS:`),
and `if (state & STATE_FRAM_PRESENT) saveNvHeader();`, which follows the last `break`
inside the braces of the `switch`. -/
def onStartBody (crc16 : List Nat → Nat) : List SwitchStmt :=
  [SwitchStmt.brk,
   SwitchStmt.run (fun d => d),
   SwitchStmt.brk,
   SwitchStmt.run (fun d => if d.state.FRAM_PRESENT then saveNvHeader crc16 d else d)]

/-- The position in `onStartBody` of the `case` label that matches the command, if any
(`case U_FLASH:` before statement 0, `case U_FS:` before statement 1; there is no
`default:` label). -/
def onStartLabel (cmd : Nat) : Option Nat :=
  if cmd = U_FLASH then some 0 else if cmd = U_FS then some 1 else none

/-- The `ArduinoOTA.onStart` handler, for the update command `cmd`. -/
def onStart (crc16 : List Nat → Nat) (cmd : Nat) (d : Device) : Device :=
  let d1 := { d with state := { d.state with OTA_OR_REBOOT := true } }
  match onStartLabel cmd with
  | some k => runSwitch ((onStartBody crc16).drop k) d1
  | none => d1

/-- A running device with the FRAM present whose in-memory header has counted 7 overflows
and 1234 pulses since the last flush (the FRAM still holds the blank image). -/
def unflushedDevice : Device :=
  { runningDevice with
    nvHeader :=
      { version := 1, state := 0, nvLogFirst := 0, nvLogLast := 0, ovflow := 7, pulses := 1234,
        restoredPulses := 0, crc := 0 } }

/-! ## Configuration save (`main.cpp`: `handleSave`) -/

def STR32 : Nat := 32
def STR64 : Nat := 64

/-- The arguments of a `/save` request that `handleSave` looks at. A field is `none` when
`web.hasArg` is false for it; the numeric fields hold the value of `toFloat()`; `ef` tells
whether the argument `ef` is present (the value copied into the power calibration is that
of `pf`); the strings are lists of character codes. -/
structure SaveForm where
  vf : Option ℚ
  if_ : Option ℚ
  ef : Bool
  pf : Option ℚ
  name : Option (List Nat)
  ssid : Option (List Nat)
  psk : Option (List Nat)
  relay : Bool
  sched : Bool

/-- The C string that `c_str()` hands to `strncpy`: the characters before the first NUL. -/
def cstr (s : List Nat) : List Nat := s.takeWhile (fun c => c ≠ 0)

/-- The call `strncpy(dst, src, n)`: the first `n` bytes of `dst` become the characters of
`src`, cut after `n` or padded with NULs up to `n`; no NUL is added when `src` has `n`
characters or more. -/
def strncpy (dst src : List Nat) (n : Nat) : List Nat :=
  ((cstr src ++ List.replicate n 0).take n) ++ dst.drop n

/-- The function `handleSave`, up to the update of `cfg` (the EEPROM copy, the reply and the
network restart are not part of the model). -/
def handleSave (form : SaveForm) (d : Device) : Device :=
  let c0 := d.cfg
  let c1 := match form.vf with
    | some v => { c0 with calibration := { c0.calibration with V := v } }
    | none => c0
  let c2 := match form.if_ with
    | some v => { c1 with calibration := { c1.calibration with I := v } }
    | none => c1
  let c3 := if form.ef then { c2 with calibration := { c2.calibration with P := form.pf.getD 0 } }
    else c2
  let c4 := match form.name with
    | some s =>
      { c3 with hostname := strncpy c3.hostname s STR32, ssid := c3.ssid.set (STR32 - 1) 0 }
    | none => c3
  let c5 := match form.ssid with
    | some s => { c4 with ssid := (strncpy c4.ssid s STR64).set (STR64 - 1) 0 }
    | none => c4
  let c6 := match form.psk with
    | some s => { c5 with psk := (strncpy c5.psk s STR64).set (STR64 - 1) 0 }
    | none => c5
  let c7 := if form.relay then { c6 with flags := c6.flags ||| CFG_RELAY_ON_BOOT }
    else { c6 with flags := c6.flags &&& (255 - CFG_RELAY_ON_BOOT) }
  let c8 := if form.sched then { c7 with flags := c7.flags ||| CFG_SCHEDULE }
    else { c7 with flags := c7.flags &&& (255 - CFG_SCHEDULE) }
  { d with cfg := c8 }

/-- A request that sets only the name, to 32 characters `a`. -/
def longNameForm : SaveForm :=
  { vf := none, if_ := none, ef := false, pf := none, name := some (List.replicate 32 0x61),
    ssid := none, psk := none, relay := false, sched := false }

/-- A device with the factory configuration except for an SSID of 40 characters `s`
(NUL-terminated within its 64 bytes). -/
def longSsidDevice : Device :=
  { initDevice with
    cfg := { factoryConfig with ssid := List.replicate 40 0x73 ++ List.replicate 24 0 } }

/-! ## Decoder: error codes -/

/-- A 24-byte packet with the "uncalibrated" header byte `0xAA` and a matching checksum. -/
def uncalibratedFrame : List Nat := [0xAA] ++ sampleFrame.drop 1

/-! ## The averaging accumulator (`readCse7759b`, `saveNvLog`) -/

theorem checkSum_fold (f : Nat → Nat) (l : List Nat) (a : Nat) :
    l.foldl (fun cksum i => (cksum + f i) % 256) a = (a + (l.map f).sum) % 256 ∨
      (l = [] ∧ l.foldl (fun cksum i => (cksum + f i) % 256) a = a) := by
  induction l generalizing a with
  | nil => right; simp
  | cons x xs ih =>
    left
    simp only [List.foldl_cons, List.map_cons, List.sum_cons]
    rcases ih ((a + f x) % 256) with h | ⟨h1, h2⟩
    · rw [h]; omega
    · rw [h2]; subst h1; simp

theorem checkSum_iff (packet : Nat → Nat) :
    checkSum packet = true ↔
      rd packet 23 = ((List.range' 2 21).map (rd packet)).sum % 256 := by
  unfold checkSum
  rcases checkSum_fold (rd packet) (List.range' 2 21) 0 with h | ⟨h1, _⟩
  · rw [h, Nat.zero_add, beq_iff_eq]
    exact eq_comm
  · exact absurd h1 (by decide)

theorem drain_inv (serial : List Nat) : ∀ (index : Nat) (packet : Nat → Nat),
    index < 24 → FrameInv index packet →
      (drain index packet serial).1 ≤ 24 ∧
        FrameInv (drain index packet serial).1 (drain index packet serial).2.1 := by
  induction serial with
  | nil => intro index packet hi hinv; exact ⟨by simp [drain]; omega, by simpa [drain] using hinv⟩
  | cons b rest ih =>
    intro index packet hi hinv
    unfold drain
    simp only []
    split
    · exact ih index packet hi hinv
    · rename_i h1
      split
      · exact ih 0 packet (by omega) ⟨by omega, by omega⟩
      · rename_i h2
        have hidx : (index + 1) % 256 = index + 1 := by omega
        have hinv1 : FrameInv (index + 1) (fun i => if i = index then b % 256 else packet i) := by
          refine ⟨fun _ => ?_, fun h => ?_⟩
          · by_cases hz : index = 0
            · subst hz
              have : ¬ (b % 256 ≠ 0x55 ∧ b % 256 < 0xF0) := fun hc => h1 ⟨rfl, hc⟩
              simp only [rd, if_true, sync0]
              omega
            · have := hinv.1 (by omega)
              simpa [rd, Ne.symm hz] using this
          · by_cases ho : index = 1
            · subst ho
              have : b % 256 = 0x5A := by
                by_contra hc
                exact h2 ⟨rfl, hc⟩
              simp only [rd, if_true]
              omega
            · have := hinv.2 (by omega)
              have hne : ¬ (1 = index) := fun h => ho h.symm
              simpa [rd, hne] using this
        rw [hidx]
        split
        · exact ⟨by simp only []; omega, hinv1⟩
        · exact ih (index + 1) _ (by omega) hinv1

theorem processPacket_index (d : Device) : (processPacket d).index = d.index := by
  unfold processPacket
  simp only []
  split
  · rfl
  · split <;> rfl

theorem processPacket_packet (d : Device) : (processPacket d).packet = d.packet := by
  unfold processPacket
  simp only []
  split
  · rfl
  · split <;> rfl

theorem readCse7759b_index (d : Device) (serial : List Nat) :
    (readCse7759b d serial).1.index =
      if (drain d.index d.packet serial).1 = 24 then 0 else (drain d.index d.packet serial).1 := by
  unfold readCse7759b
  simp only []
  split <;> split <;> simp_all

theorem readCse7759b_packet (d : Device) (serial : List Nat) :
    (readCse7759b d serial).1.packet = (drain d.index d.packet serial).2.1 := by
  unfold readCse7759b
  simp only []
  split <;> split <;> simp_all [processPacket_packet]

theorem readCse7759b_inv (d : Device) (serial : List Nat)
    (hi : d.index < 24) (hinv : FrameInv d.index d.packet) :
    (readCse7759b d serial).1.index < 24 ∧
      FrameInv (readCse7759b d serial).1.index (readCse7759b d serial).1.packet := by
  have h := drain_inv serial d.index d.packet hi hinv
  rw [readCse7759b_index, readCse7759b_packet]
  split
  · exact ⟨by omega, by intro h1; omega, by intro h1; omega⟩
  · exact ⟨by omega, h.2⟩

theorem runCse_inv (chunks : List (List Nat)) : ∀ (d : Device) (pending : List Nat),
    d.index < 24 → FrameInv d.index d.packet →
      (runCse d pending chunks).1.index < 24 ∧
        FrameInv (runCse d pending chunks).1.index (runCse d pending chunks).1.packet := by
  induction chunks with
  | nil => intro d pending hi hinv; exact ⟨hi, hinv⟩
  | cons c cs ih =>
    intro d pending hi hinv
    have h := readCse7759b_inv d (pending ++ c) hi hinv
    exact ih _ _ h.1 h.2

theorem processPacket_bad_checksum (d : Device) (h : checkSum d.packet = false) :
    processPacket d = { d with err := CSE_ERROR_CRC } := by
  unfold processPacket
  simp [h]

theorem readCse7759b_stages (d : Device) (serial : List Nat) :
    (readCse7759b d serial).1 = accumulate (decode (receive d serial)) := rfl

theorem accumulate_sameReadings (d : Device) :
    sameReadings (accumulate d) d ∧ (accumulate d).err = d.err := by
  unfold accumulate sameReadings
  split <;> simp

theorem decode_bad_checksum (d : Device) (h : d.index = 24) (hc : checkSum d.packet = false) :
    decode d = { d with err := CSE_ERROR_CRC, index := 0 } := by
  unfold decode
  rw [if_pos h, processPacket_bad_checksum { d with err := CSE_ERROR_OK } hc]

theorem readCse7759b_no_frame (d : Device) (serial : List Nat)
    (h : (drain d.index d.packet serial).1 ≠ 24) :
    sameReadings (readCse7759b d serial).1 d := by
  rw [readCse7759b_stages]
  have h1 : decode (receive d serial) = receive d serial := by
    unfold decode
    rw [if_neg]
    exact h
  have h2 := (accumulate_sameReadings (receive d serial)).1
  rw [h1]
  exact h2

theorem readCse7759b_bad_checksum (d : Device) (serial : List Nat)
    (h : (drain d.index d.packet serial).1 = 24)
    (hc : checkSum (drain d.index d.packet serial).2.1 = false) :
    sameReadings (readCse7759b d serial).1 d ∧ (readCse7759b d serial).1.err = CSE_ERROR_CRC := by
  rw [readCse7759b_stages, decode_bad_checksum (receive d serial) h hc]
  exact accumulate_sameReadings _

/-- C1. Over any byte stream and any sequence of `readCse7759b` calls from reset, a call
changes `voltage`, `current`, `power`, `energy` or `ovflow` only if it completed a 24-byte
buffer whose byte 0 is `0x55` or lies in `0xF0..0xFF`, whose byte 1 is `0x5A` and whose
byte 23 is the sum of bytes 2..22 modulo 256; a completed buffer whose last byte is not that
sum leaves the five readings as they were and sets `err` to `CSE_ERROR_CRC`. -/
theorem readCse7759b_updates_only_on_valid_frame (d0 : Device) (pending : List Nat)
    (chunks : List (List Nat)) (serial : List Nat) (h0 : d0.index = 0) :
    let d := (runCse d0 pending chunks).1
    let buf := drain d.index d.packet serial
    let d1 := (readCse7759b d serial).1
    ((d1.voltage ≠ d.voltage ∨ d1.current ≠ d.current ∨ d1.power ≠ d.power ∨
        d1.energy ≠ d.energy ∨ d1.ovflow ≠ d.ovflow) →
      buf.1 = 24 ∧ (rd buf.2.1 0 = 0x55 ∨ (0xF0 ≤ rd buf.2.1 0 ∧ rd buf.2.1 0 ≤ 0xFF)) ∧
        rd buf.2.1 1 = 0x5A ∧
        rd buf.2.1 23 = ((List.range' 2 21).map (rd buf.2.1)).sum % 256) ∧
    (buf.1 = 24 → rd buf.2.1 23 ≠ ((List.range' 2 21).map (rd buf.2.1)).sum % 256 →
      d1.voltage = d.voltage ∧ d1.current = d.current ∧ d1.power = d.power ∧
        d1.energy = d.energy ∧ d1.ovflow = d.ovflow ∧ d1.err = CSE_ERROR_CRC) := by
  intro d buf d1
  have hreach := runCse_inv chunks d0 pending (by omega)
    ⟨by intro h; omega, by intro h; omega⟩
  have hbuf := drain_inv serial d.index d.packet hreach.1 hreach.2
  refine ⟨fun hchg => ?_, fun h24 hsum => ?_⟩
  · by_cases h24 : buf.1 = 24
    · by_cases hc : checkSum buf.2.1 = true
      · have hs := hbuf.2.1 (by show 1 ≤ buf.1; omega)
        have h5a := hbuf.2.2 (by show 2 ≤ buf.1; omega)
        refine ⟨h24, ?_, h5a, (checkSum_iff _).1 hc⟩
        have hlt : rd buf.2.1 0 < 256 := Nat.mod_lt _ (by decide)
        rcases hs with hs | hs
        · exact Or.inl hs
        · exact Or.inr ⟨hs, by omega⟩
      · have hc1 : checkSum buf.2.1 = false := by simpa using hc
        obtain ⟨⟨hv, hi, hp, he, ho⟩, _⟩ := readCse7759b_bad_checksum d serial h24 hc1
        rcases hchg with h | h | h | h | h
        · exact absurd hv h
        · exact absurd hi h
        · exact absurd hp h
        · exact absurd he h
        · exact absurd ho h
    · obtain ⟨hv, hi, hp, he, ho⟩ := readCse7759b_no_frame d serial h24
      rcases hchg with h | h | h | h | h
      · exact absurd hv h
      · exact absurd hi h
      · exact absurd hp h
      · exact absurd he h
      · exact absurd ho h
  · have hc1 : checkSum buf.2.1 = false := by
      by_contra hc
      exact hsum ((checkSum_iff _).1 (by simpa using hc))
    obtain ⟨⟨hv, hi, hp, he, ho⟩, herr⟩ := readCse7759b_bad_checksum d serial h24 hc1
    exact ⟨hv, hi, hp, he, ho, herr⟩

/-- Witness of C1: after one decoded frame, a second frame with a corrupted last byte
completes the buffer, leaves the readings alone and reports `CSE_ERROR_CRC`. -/
theorem readCse7759b_updates_only_on_valid_frame_witness :
    initDevice.index = 0 ∧
      (drain (runCse initDevice [] [sampleFrame]).1.index
        (runCse initDevice [] [sampleFrame]).1.packet corruptFrame).1 = 24 ∧
      (readCse7759b (runCse initDevice [] [sampleFrame]).1 corruptFrame).1.ovflow =
        (runCse initDevice [] [sampleFrame]).1.ovflow ∧
      (readCse7759b (runCse initDevice [] [sampleFrame]).1 corruptFrame).1.err = CSE_ERROR_CRC := by
  have h := (readCse7759b_updates_only_on_valid_frame initDevice [] [sampleFrame] corruptFrame
    rfl).2
  have h24 : (drain (runCse initDevice [] [sampleFrame]).1.index
      (runCse initDevice [] [sampleFrame]).1.packet corruptFrame).1 = 24 := by decide
  have hr := h h24 (by decide)
  exact ⟨rfl, h24, hr.2.2.2.2.1, hr.2.2.2.2.2⟩

/-! ## Decoder: derived readings -/

theorem be24_eq (a b c : Nat) (hb : b < 256) (hc : c < 256) :
    be24 a b c = a * 65536 + b * 256 + c := by
  unfold be24
  have h1 : a <<< 16 = 2 ^ 16 * a := by rw [Nat.shiftLeft_eq, Nat.mul_comm]
  have h2 : b <<< 8 = 2 ^ 8 * b := by rw [Nat.shiftLeft_eq, Nat.mul_comm]
  have h3 : 2 ^ 16 * a ||| 2 ^ 8 * b = 2 ^ 16 * a + 2 ^ 8 * b :=
    (Nat.mul_add_lt_is_or (by omega) a).symm
  have h4 : 2 ^ 16 * a + 2 ^ 8 * b = 2 ^ 8 * (2 ^ 8 * a + b) := by omega
  have h5 : 2 ^ 8 * (2 ^ 8 * a + b) ||| c = 2 ^ 8 * (2 ^ 8 * a + b) + c :=
    (Nat.mul_add_lt_is_or (by omega) _).symm
  rw [h1, h2, h3, h4, h5]
  omega

theorem be16_eq (a b : Nat) (ha : a < 256) (hb : b < 256) :
    (a <<< 8 ||| b) % 65536 = a * 256 + b := by
  have h1 : a <<< 8 = 2 ^ 8 * a := by rw [Nat.shiftLeft_eq, Nat.mul_comm]
  have h2 : 2 ^ 8 * a ||| b = 2 ^ 8 * a + b := (Nat.mul_add_lt_is_or (by omega) a).symm
  rw [h1, h2]
  omega

theorem rd_lt (packet : Nat → Nat) (i : Nat) : rd packet i < 256 := Nat.mod_lt _ (by decide)

theorem be24_field (packet : Nat → Nat) (i : Nat) :
    be24 (rd packet i) (rd packet (i + 1)) (rd packet (i + 2)) = field24 packet i :=
  be24_eq _ _ _ (rd_lt _ _) (rd_lt _ _)

set_option maxRecDepth 100000 in
theorem mask_testBit : ∀ a : Nat, a < 256 →
    (a &&& 0x10 != 0) = a.testBit 4 ∧ (a &&& 0x20 != 0) = a.testBit 5 ∧
      (a &&& 0x40 != 0) = a.testBit 6 := by
  decide

set_option maxRecDepth 100000 in
theorem exceeded_testBit : ∀ a : Nat, a < 256 → (a = 0x55 ∨ 0xF0 ≤ a) →
    ((a &&& 0xF0 != 0) && (a &&& 0x08 != 0)) = a.testBit 3 ∧
      ((a &&& 0xF0 != 0) && (a &&& 0x02 != 0)) = a.testBit 1 ∧ (a == 0xAA) = false := by
  decide

/-- C2. For a checksum-valid frame (byte 0 passed the sync filter of `readCse7759b`) and
calibration `(cV, cI, cP)`, with `kV, tV, kI, tI, kP, tP` the big-endian values of bytes
`[2..4]`, `[5..7]`, `[8..10]`, `[11..13]`, `[14..16]`, `[17..19]`: `voltage = cV*kV/tV` when
byte 20 bit 6 is set and byte 0 bit 3 is clear, else `0`; `power = cP*kP/tP` when byte 20
bit 4 is set and byte 0 bit 1 is clear, else `0`; `current = cI*kI/tI` when the power
condition holds and byte 20 bit 5 is set, else `0`. Every period that the frame makes
`processPacket` divide by is non-zero (`_htV`, `_htP`, `_htI`): the quotients are those of
exact arithmetic. -/
theorem processPacket_readings (d : Device) (hc : checkSum d.packet = true)
    (hs : sync0 (rd d.packet 0))
    (_htV : (rd d.packet 20).testBit 6 = true → (rd d.packet 0).testBit 3 = false →
      field24 d.packet 5 ≠ 0)
    (_htP : (rd d.packet 20).testBit 4 = true → (rd d.packet 0).testBit 1 = false →
      field24 d.packet 17 ≠ 0)
    (_htI : (rd d.packet 20).testBit 4 = true → (rd d.packet 0).testBit 1 = false →
      (rd d.packet 20).testBit 5 = true → field24 d.packet 11 ≠ 0) :
    let p := d.packet
    let cal := d.cfg.calibration
    let vOk := (rd p 20).testBit 6 = true ∧ (rd p 0).testBit 3 = false
    let pOk := (rd p 20).testBit 4 = true ∧ (rd p 0).testBit 1 = false
    (processPacket d).voltage =
        (if vOk then cal.V * (field24 p 2 : ℚ) / (field24 p 5 : ℚ) else 0) ∧
      (processPacket d).power =
        (if pOk then cal.P * (field24 p 14 : ℚ) / (field24 p 17 : ℚ) else 0) ∧
      (processPacket d).current =
        (if pOk ∧ (rd p 20).testBit 5 = true then
          cal.I * (field24 p 8 : ℚ) / (field24 p 11 : ℚ) else 0) := by
  intro p cal vOk pOk
  have hb := exceeded_testBit (rd d.packet 0) (rd_lt _ _) hs
  have hm := mask_testBit (rd d.packet 20) (rd_lt _ _)
  unfold processPacket
  simp only [hc, hb.2.2, H1_UNCALIBRATED, H1_ABNORMAL, H1_VOLTAGE_CYCLE_EXCEEDED,
    H1_POWER_CYCLE_EXCEEDED, ADJ_POWER_CYCLE_COMPLETE, ADJ_CURRENT_CYCLE_COMPLETE,
    ADJ_VOLTAGE_CYCLE_COMPLETE, hb.1, hb.2.1, hm.1, hm.2.1, hm.2.2, be24_field]
  rcases Bool.eq_false_or_eq_true ((rd d.packet 0).testBit 3) with h3 | h3 <;>
    rcases Bool.eq_false_or_eq_true ((rd d.packet 20).testBit 6) with h6 | h6 <;>
    rcases Bool.eq_false_or_eq_true ((rd d.packet 0).testBit 1) with h1 | h1 <;>
    rcases Bool.eq_false_or_eq_true ((rd d.packet 20).testBit 4) with h4 | h4 <;>
    rcases Bool.eq_false_or_eq_true ((rd d.packet 20).testBit 5) with h5 | h5 <;>
    simp [vOk, pOk, p, cal, h3, h6, h1, h4, h5]

/-- Witness of C2 on `sampleFrame`: all three cycles complete, nothing exceeded, the periods
`tV = 16`, `tP = 64`, `tI = 32` non-zero. -/
theorem processPacket_readings_witness :
    checkSum sampleDevice.packet = true ∧ sync0 (rd sampleDevice.packet 0) ∧
      field24 sampleDevice.packet 5 = 16 ∧ field24 sampleDevice.packet 17 = 64 ∧
      field24 sampleDevice.packet 11 = 32 ∧
      (processPacket sampleDevice).voltage = 240 / 16 ∧
      (processPacket sampleDevice).power = 20576 / 64 ∧
      (processPacket sampleDevice).current = 128 / 32 := by
  have h := processPacket_readings sampleDevice (by decide) (Or.inl (by decide))
    (fun _ _ => by decide) (fun _ _ => by decide) (fun _ _ _ => by decide)
  simp only [] at h
  rw [if_pos (by decide), if_pos (by decide), if_pos (by decide)] at h
  refine ⟨by decide, Or.inl (by decide), by decide, by decide, by decide, ?_, ?_, ?_⟩
  · rw [h.1]
    have e1 : field24 sampleDevice.packet 2 = 240 := by decide
    have e2 : field24 sampleDevice.packet 5 = 16 := by decide
    rw [e1, e2]
    norm_num [sampleDevice, loadPacket, initDevice]
  · rw [h.2.1]
    have e1 : field24 sampleDevice.packet 14 = 20576 := by decide
    have e2 : field24 sampleDevice.packet 17 = 64 := by decide
    rw [e1, e2]
    norm_num [sampleDevice, loadPacket, initDevice]
  · rw [h.2.2]
    have e1 : field24 sampleDevice.packet 8 = 128 := by decide
    have e2 : field24 sampleDevice.packet 11 = 32 := by decide
    rw [e1, e2]
    norm_num [sampleDevice, loadPacket, initDevice]

/-! ## Decoder: pulse-counter overflow and energy -/

set_option maxRecDepth 100000 in
theorem and_0x80 : ∀ a : Nat, a < 256 → a &&& 0x80 = if a.testBit 7 then 128 else 0 := by
  decide

theorem toggle_testBit (a b : Nat) (ha : a < 256) (hb : b < 256) :
    (a &&& 0x80 != b &&& 0x80) = (a.testBit 7 != b.testBit 7) := by
  rw [and_0x80 a ha, and_0x80 b hb]
  cases a.testBit 7 <;> cases b.testBit 7 <;> decide

theorem processPacket_counters (d : Device) (hc : checkSum d.packet = true)
    (hs : sync0 (rd d.packet 0)) :
    (processPacket d).ovflow = (if toggled d then (d.ovflow + 1) % 4294967296 else d.ovflow) ∧
      (processPacket d).lastAdj =
        some (if toggled d then rd d.packet 20 else d.lastAdj.getD (rd d.packet 20) % 256) ∧
      (processPacket d).energy =
        (((processPacket d).ovflow : ℚ) * 65536 + (field16 d.packet 21 : ℚ) +
          (d.restoredPulses : ℚ)) / (1000000000 / (field24 d.packet 14 : ℚ) * 3600) := by
  have hb := exceeded_testBit (rd d.packet 0) (rd_lt _ _) hs
  have ht := toggle_testBit (rd d.packet 20) (d.lastAdj.getD (rd d.packet 20) % 256)
    (rd_lt _ _) (Nat.mod_lt _ (by decide))
  have h16 := be16_eq (rd d.packet 21) (rd d.packet 22) (rd_lt _ _) (rd_lt _ _)
  unfold processPacket toggled
  simp only [hc, hb.2.2, H1_UNCALIBRATED, be24_field, ht, h16, field16]
  simp

theorem feed_counters (d : Device) (f : Nat → Nat) (hc : checkSum f = true)
    (hs : sync0 (rd f 0)) :
    (feed d f).ovflow =
        (if adjBit7 f ≠ (d.lastAdj.getD (rd f 20) % 256).testBit 7 then
          (d.ovflow + 1) % 4294967296 else d.ovflow) ∧
      ∃ a, (feed d f).lastAdj = some a ∧ (a % 256).testBit 7 = adjBit7 f := by
  have h := processPacket_counters { d with packet := f } hc hs
  unfold feed
  refine ⟨?_, ?_⟩
  · rw [h.1]
    unfold toggled adjBit7
    by_cases hb : (rd f 20).testBit 7 = (d.lastAdj.getD (rd f 20) % 256).testBit 7
    · simp [hb]
    · simp [hb]
  · refine ⟨_, h.2.1, ?_⟩
    unfold toggled adjBit7
    by_cases hb : (rd f 20).testBit 7 = (d.lastAdj.getD (rd f 20) % 256).testBit 7
    · simp [hb]
    · have hlt : rd f 20 % 256 = rd f 20 := Nat.mod_eq_of_lt (rd_lt _ _)
      simp [hb, hlt]

theorem processFrames_from (fs : List (Nat → Nat)) : ∀ (d : Device) (a : Nat),
    d.lastAdj = some a → d.ovflow < 4294967296 →
    (∀ f ∈ fs, checkSum f = true ∧ sync0 (rd f 0)) →
      (processFrames d fs).ovflow =
        (d.ovflow + togglesFrom ((a % 256).testBit 7) fs) % 4294967296 := by
  induction fs with
  | nil =>
    intro d a _ hov _
    simp only [processFrames, togglesFrom]
    omega
  | cons f rest ih =>
    intro d a ha hov hv
    obtain ⟨hc, hs⟩ := hv f (List.mem_cons_self _ _)
    obtain ⟨ho, b, hb, hbit⟩ := feed_counters d f hc hs
    rw [ha, Option.getD_some] at ho
    have hov1 : (feed d f).ovflow < 4294967296 := by
      rw [ho]
      split <;> omega
    have := ih (feed d f) b hb hov1 (fun g hg => hv g (List.mem_cons_of_mem _ hg))
    simp only [processFrames, togglesFrom]
    rw [this, hbit, ho]
    split <;> omega

/-- C3. For a sequence of checksum-valid frames passed through `processPacket` from the
first frame on (the static `lastAdj` is initialised by the first of them), `ovflow` after
the sequence is `ovflow` before it plus `k` as a 32-bit counter, `k` being the number of
frames other than the first whose byte 20 bit 7 differs from that of the preceding frame;
without a wrap of the 32-bit counter that is `ovflow + k`. Two valid frames in a row
whose bit 7 differs raise `ovflow` by exactly one step of that counter. -/
theorem processFrames_ovflow (d : Device) (fs : List (Nat → Nat))
    (hinit : d.lastAdj = none) (hov : d.ovflow < 4294967296)
    (hvalid : ∀ f ∈ fs, checkSum f = true ∧ sync0 (rd f 0)) :
    (processFrames d fs).ovflow = (d.ovflow + toggles fs) % 4294967296 ∧
      (d.ovflow + toggles fs < 4294967296 →
        (processFrames d fs).ovflow = d.ovflow + toggles fs) ∧
      (∀ (d0 : Device) (f g : Nat → Nat), checkSum f = true → sync0 (rd f 0) →
        checkSum g = true → sync0 (rd g 0) → adjBit7 g ≠ adjBit7 f →
          (feed (feed d0 f) g).ovflow = ((feed d0 f).ovflow + 1) % 4294967296) := by
  have key : (processFrames d fs).ovflow = (d.ovflow + toggles fs) % 4294967296 := by
    cases fs with
    | nil =>
      simp only [processFrames, toggles]
      omega
    | cons f rest =>
      obtain ⟨hc, hs⟩ := hvalid f (List.mem_cons_self _ _)
      obtain ⟨ho, b, hb, hbit⟩ := feed_counters d f hc hs
      have hlt : rd f 20 % 256 = rd f 20 := Nat.mod_eq_of_lt (rd_lt _ _)
      rw [hinit, Option.getD_none, hlt] at ho
      have ho1 : (feed d f).ovflow = d.ovflow := by
        rw [ho]
        simp [adjBit7]
      have := processFrames_from rest (feed d f) b hb (by omega)
        (fun g hg => hvalid g (List.mem_cons_of_mem _ hg))
      simp only [processFrames, toggles]
      rw [this, hbit, ho1]
  refine ⟨key, fun h => ?_, ?_⟩
  · rw [key]
    omega
  · intro d0 f g hcf hsf hcg hsg hne
    obtain ⟨_, b, hb, hbit⟩ := feed_counters d0 f hcf hsf
    obtain ⟨ho, _⟩ := feed_counters (feed d0 f) g hcg hsg
    rw [hb, Option.getD_some, hbit] at ho
    rw [ho, if_pos hne]

/-- Witness of C3: four valid frames with overflow bits 0, 1, 1, 0 raise `ovflow` by 2. -/
theorem processFrames_ovflow_witness :
    initDevice.lastAdj = none ∧ initDevice.ovflow < 4294967296 ∧
      toggles [frameOf sampleFrame, frameOf sampleFrameHi, frameOf sampleFrameHi,
        frameOf sampleFrame] = 2 ∧
      (processFrames initDevice [frameOf sampleFrame, frameOf sampleFrameHi,
        frameOf sampleFrameHi, frameOf sampleFrame]).ovflow = initDevice.ovflow + 2 := by
  have ht : toggles [frameOf sampleFrame, frameOf sampleFrameHi, frameOf sampleFrameHi,
      frameOf sampleFrame] = 2 := by decide
  have h := (processFrames_ovflow initDevice
    [frameOf sampleFrame, frameOf sampleFrameHi, frameOf sampleFrameHi, frameOf sampleFrame]
    rfl (by decide) (by
      intro f hf
      simp only [List.mem_cons, List.mem_singleton, List.not_mem_nil, or_false] at hf
      rcases hf with rfl | rfl | rfl | rfl <;> exact ⟨by decide, Or.inl (by decide)⟩)).2.1
  rw [ht] at h
  exact ⟨rfl, by decide, ht, h (by decide)⟩

/-- C4. For a checksum-valid frame with `kP > 0`, the energy after `processPacket` is
`(ovflow*65536 + pulses + restoredPulses) / ((10^9 / kP) * 3600)` in exact arithmetic, with
`pulses` the big-endian value of bytes `[21..22]`, `kP` that of bytes `[14..16]` and `ovflow`
the counter after this frame's toggle detection (the divisor is not zero); when the frame
toggles the counter (without a 32-bit wrap) the energy is that of the previous `ovflow`
with 65536 more pulses. -/
theorem processPacket_energy (d : Device) (hc : checkSum d.packet = true)
    (hs : sync0 (rd d.packet 0)) (hk : 0 < field24 d.packet 14) :
    let Fcf : ℚ := 1000000000 / (field24 d.packet 14 : ℚ)
    let pulses : ℚ := (field16 d.packet 21 : ℚ)
    (processPacket d).energy =
        (((processPacket d).ovflow : ℚ) * 65536 + pulses + (d.restoredPulses : ℚ)) /
          (Fcf * 3600) ∧
      Fcf * 3600 ≠ 0 ∧
      (toggled d = true → d.ovflow + 1 < 4294967296 →
        (processPacket d).ovflow = d.ovflow + 1 ∧
        (processPacket d).energy =
          ((d.ovflow : ℚ) * 65536 + (pulses + 65536) + (d.restoredPulses : ℚ)) /
            (Fcf * 3600)) := by
  intro Fcf pulses
  have h := processPacket_counters d hc hs
  refine ⟨h.2.2, ?_, fun ht hw => ?_⟩
  · have hk1 : (field24 d.packet 14 : ℚ) ≠ 0 := by
      have : (0 : ℚ) < (field24 d.packet 14 : ℚ) := by exact_mod_cast hk
      exact ne_of_gt this
    have : Fcf ≠ 0 := div_ne_zero (by norm_num) hk1
    exact mul_ne_zero this (by norm_num)
  · have ho : (processPacket d).ovflow = d.ovflow + 1 := by
      rw [h.1, if_pos ht]
      omega
    refine ⟨ho, ?_⟩
    rw [h.2.2, ho]
    push_cast
    ring

/-- Witness of C4: the frame `sampleFrameHi` (`kP = 0x5060`, one pulse) toggles the overflow
bit, so the energy is that of `65536 + 1` pulses. -/
theorem processPacket_energy_witness :
    checkSum sampleDeviceHi.packet = true ∧ sync0 (rd sampleDeviceHi.packet 0) ∧
      0 < field24 sampleDeviceHi.packet 14 ∧
      (processPacket sampleDeviceHi).ovflow = 1 ∧
      (processPacket sampleDeviceHi).energy = 65537 / (1000000000 / 20576 * 3600) := by
  have h := (processPacket_energy sampleDeviceHi (by decide) (Or.inl (by decide))
    (by decide)).2.2 (by decide) (by decide)
  have e1 : field24 sampleDeviceHi.packet 14 = 20576 := by decide
  have e2 : field16 sampleDeviceHi.packet 21 = 1 := by decide
  refine ⟨by decide, Or.inl (by decide), by decide, h.1, ?_⟩
  rw [h.2, e1, e2]
  norm_num [sampleDeviceHi, loadPacket, initDevice]

/-! ## NV store: header integrity -/

theorem headerBytes_take (h : nvHeader) (c : Nat) :
    (headerBytes { h with crc := c }).take (16 - 2) = (headerBytes h).take (16 - 2) := rfl

theorem framRead_framWrite_header (fram : Fram) (h : nvHeader) :
    framRead (framWrite fram 0 (headerBytes h)) 0 16 = headerBytes h := by
  simp [framRead, framWrite, headerBytes, u16le, u32le]

theorem headerOfBytes_crc (h : nvHeader) :
    (headerOfBytes (headerBytes h)).crc = h.crc % 65536 := by
  simp [headerOfBytes, headerBytes, u16le, u32le]
  omega

theorem headerBytes_framRead (fram : Fram) :
    headerBytes (headerOfBytes (framRead fram 0 16)) = framRead fram 0 16 := by
  simp only [framRead, headerOfBytes, headerBytes, u16le, u32le, List.getD_cons_zero,
    List.getD_cons_succ, List.cons_append, List.nil_append, List.cons.injEq, and_true]
  refine ⟨?_, ?_, ?_, ?_, ?_, ?_, ?_, ?_, ?_, ?_, ?_, ?_, ?_, ?_, ?_, ?_⟩ <;> omega

theorem saveNvHeader_fram (crc16 : List Nat → Nat) (d : Device) :
    framRead (saveNvHeader crc16 d).fram 0 16 = headerBytes (saveNvHeader crc16 d).nvHeader := by
  unfold saveNvHeader
  exact framRead_framWrite_header _ _

theorem saveNvHeader_crcOk (crc16 : List Nat → Nat) (d : Device) :
    crcOk crc16 (saveNvHeader crc16 d).fram := by
  unfold crcOk
  rw [saveNvHeader_fram, headerOfBytes_crc]
  unfold saveNvHeader
  simp only [headerBytes_take]
  omega

/-- C7. The header image that `saveNvHeader` writes to FRAM offset 0 carries, in its last
two bytes, the CRC-16 of its first `sizeof(nvHeader) - 2` bytes, whatever the in-memory
header; so does the image left by each path that writes the header: the periodic flush
(`saveNvHeader` itself), the log append, the reboot handler and the re-initialisation of
`nvInit`. -/
theorem saveNvHeader_image_crc (crc16 : List Nat → Nat) (d : Device) (N : Nat) (now : Int) :
    crcOk crc16 (saveNvHeader crc16 d).fram ∧
      (d.state.NTP_GOT_TIME = true → crcOk crc16 (saveNvLog crc16 N now d).fram) ∧
      (d.state.FRAM_PRESENT = true → crcOk crc16 (handleReboot crc16 d).fram) ∧
      (¬ headerValid crc16 (headerOfBytes (framRead d.fram 0 16)) →
        crcOk crc16 (nvInit crc16 d).fram) := by
  refine ⟨saveNvHeader_crcOk crc16 d, fun h => ?_, fun h => ?_, fun h => ?_⟩
  · unfold saveNvLog
    rw [if_pos h]
    exact saveNvHeader_crcOk crc16 _
  · unfold handleReboot
    simp only [h, if_true]
    exact saveNvHeader_crcOk crc16 _
  · have hc : (headerOfBytes (framRead d.fram 0 16)).version ≠ NVVERSION ∨
        (headerOfBytes (framRead d.fram 0 16)).crc ≠
          crc16 ((headerBytes (headerOfBytes (framRead d.fram 0 16))).take (16 - 2)) % 65536 := by
      unfold headerValid at h
      by_cases hv : (headerOfBytes (framRead d.fram 0 16)).version = NVVERSION
      · exact Or.inr (fun hcrc => h ⟨hv, hcrc⟩)
      · exact Or.inl hv
    unfold nvInit
    simp only [hc, if_true]
    exact saveNvHeader_crcOk crc16 _

theorem nvInit_valid (crc16 : List Nat → Nat) (d : Device)
    (h : headerValid crc16 (headerOfBytes (framRead d.fram 0 16))) :
    nvInit crc16 d = { d with nvHeader := headerOfBytes (framRead d.fram 0 16) } := by
  unfold nvInit
  have hc : ¬ ((headerOfBytes (framRead d.fram 0 16)).version ≠ NVVERSION ∨
      (headerOfBytes (framRead d.fram 0 16)).crc ≠
        crc16 ((headerBytes (headerOfBytes (framRead d.fram 0 16))).take (16 - 2)) % 65536) := by
    rintro (h1 | h1)
    · exact h1 h.1
    · exact h1 h.2
  simp only [hc, if_false]

theorem nvInit_invalid (crc16 : List Nat → Nat) (d : Device)
    (h : ¬ headerValid crc16 (headerOfBytes (framRead d.fram 0 16))) :
    nvInit crc16 d =
      { d with nvHeader := freshHeader crc16,
               fram := framWrite d.fram NV_HEADER_OFFSET (headerBytes (freshHeader crc16)) } := by
  have hc : (headerOfBytes (framRead d.fram 0 16)).version ≠ NVVERSION ∨
      (headerOfBytes (framRead d.fram 0 16)).crc ≠
        crc16 ((headerBytes (headerOfBytes (framRead d.fram 0 16))).take (16 - 2)) % 65536 := by
    unfold headerValid at h
    by_cases hv : (headerOfBytes (framRead d.fram 0 16)).version = NVVERSION
    · exact Or.inr (fun hcrc => h ⟨hv, hcrc⟩)
    · exact Or.inl hv
  unfold nvInit
  simp only [hc, if_true]
  rfl

theorem headerOfBytes_freshHeader (crc16 : List Nat → Nat) :
    headerOfBytes (headerBytes (freshHeader crc16)) = freshHeader crc16 := by
  simp only [freshHeader, zeroedHeader, headerOfBytes, headerBytes, u16le, u32le, NVVERSION,
    List.getD_cons_zero, List.getD_cons_succ, List.cons_append, List.nil_append,
    nvHeader.mk.injEq, true_and]
  omega

theorem freshHeader_valid (crc16 : List Nat → Nat) : headerValid crc16 (freshHeader crc16) :=
  ⟨rfl, rfl⟩

/-- C8. `nvInit` on the header image read from FRAM offset 0: when the image is valid
(version `NVVERSION`, stored crc equal to the CRC of the preceding bytes) the in-memory
header is the image and the FRAM is not written; otherwise the in-memory header is the
fresh one (`version = NVVERSION`, all counters and indices zero, `crc` the CRC of that
zeroed header), exactly its 16 bytes are written at offset 0 (the rest of the FRAM is left
alone), and a second `nvInit` changes nothing. -/
theorem nvInit_spec (crc16 : List Nat → Nat) (d : Device) :
    (headerValid crc16 (headerOfBytes (framRead d.fram 0 16)) →
        (nvInit crc16 d).nvHeader = headerOfBytes (framRead d.fram 0 16) ∧
          (nvInit crc16 d).fram = d.fram) ∧
      (¬ headerValid crc16 (headerOfBytes (framRead d.fram 0 16)) →
        (nvInit crc16 d).nvHeader = freshHeader crc16 ∧
          framRead (nvInit crc16 d).fram 0 16 = headerBytes (freshHeader crc16) ∧
          (∀ a, 16 ≤ a → (nvInit crc16 d).fram.mem a = d.fram.mem a) ∧
          (nvInit crc16 d).fram.log = d.fram.log ∧
          nvInit crc16 (nvInit crc16 d) = nvInit crc16 d) := by
  refine ⟨fun h => ?_, fun h => ?_⟩
  · rw [nvInit_valid crc16 d h]
    exact ⟨rfl, rfl⟩
  · have hread : framRead (nvInit crc16 d).fram 0 16 = headerBytes (freshHeader crc16) := by
      rw [nvInit_invalid crc16 d h]
      exact framRead_framWrite_header _ _
    have hhdr : (nvInit crc16 d).nvHeader = freshHeader crc16 := by
      rw [nvInit_invalid crc16 d h]
    refine ⟨hhdr, hread, ?_, ?_, ?_⟩
    · intro a ha
      rw [nvInit_invalid crc16 d h]
      have hlen : (headerBytes (freshHeader crc16)).length = 16 := rfl
      simp only [framWrite, NV_HEADER_OFFSET, hlen]
      rw [if_neg (by omega)]
    · rw [nvInit_invalid crc16 d h]
      rfl
    · have hv : headerValid crc16 (headerOfBytes (framRead (nvInit crc16 d).fram 0 16)) := by
        rw [hread, headerOfBytes_freshHeader]
        exact freshHeader_valid crc16
      rw [nvInit_valid crc16 (nvInit crc16 d) hv, hread, headerOfBytes_freshHeader, ← hhdr]

/-! ## Boot recovery of the pulse counters -/

theorem headerOfBytes_bounds (fram : Fram) :
    (headerOfBytes (framRead fram 0 16)).ovflow < 4294967296 ∧
      (headerOfBytes (framRead fram 0 16)).pulses < 65536 ∧
      (headerOfBytes (framRead fram 0 16)).restoredPulses < 65536 := by
  simp only [framRead, headerOfBytes, List.getD_cons_zero, List.getD_cons_succ]
  omega

theorem setup_power_on (crc16 : List Nat → Nat) (d : Device)
    (hv : headerValid crc16 (headerOfBytes (framRead d.fram 0 16))) :
    (setup crc16 true true d).restoredPulses =
        ((headerOfBytes (framRead d.fram 0 16)).restoredPulses +
          (headerOfBytes (framRead d.fram 0 16)).pulses) % 65536 ∧
      (setup crc16 true true d).nvHeader.restoredPulses =
        (setup crc16 true true d).restoredPulses ∧
      (setup crc16 true true d).ovflow =
        (if ((headerOfBytes (framRead d.fram 0 16)).restoredPulses +
              (headerOfBytes (framRead d.fram 0 16)).pulses) % 65536 <
            (headerOfBytes (framRead d.fram 0 16)).restoredPulses then
          ((headerOfBytes (framRead d.fram 0 16)).ovflow + 1) % 4294967296
         else (headerOfBytes (framRead d.fram 0 16)).ovflow) ∧
      (setup crc16 true true d).nvHeader.ovflow = (setup crc16 true true d).ovflow ∧
      (setup crc16 true true d).nvHeader.pulses =
        (headerOfBytes (framRead d.fram 0 16)).pulses := by
  have hinit := nvInit_valid crc16
    { d with restoredPulses := 0, ovflow := 0, state := { d.state with FRAM_PRESENT := true } } hv
  unfold setup
  simp only [if_true]
  rw [hinit]
  simp only []
  split <;> simp

/-- C5. For a valid NV header `{ovflow = O, pulses = P, restoredPulses = R}` read at a
power-on reset with the FRAM present, `setup` leaves `restoredPulses = (R + P) mod 2^16`
and `ovflow = O + 1` (as a 32-bit counter) when `R + P ≥ 2^16`, else `O`, both in RAM and
in the header, and leaves `header.pulses = P`; when `O + 1` fits in 32 bits the new
`ovflow` is `O + 1` exactly. -/
theorem setup_recovery (crc16 : List Nat → Nat) (d : Device)
    (hv : headerValid crc16 (headerOfBytes (framRead d.fram 0 16))) :
    let hdr := headerOfBytes (framRead d.fram 0 16)
    let d1 := setup crc16 true true d
    d1.restoredPulses = (hdr.restoredPulses + hdr.pulses) % 65536 ∧
      d1.nvHeader.restoredPulses = (hdr.restoredPulses + hdr.pulses) % 65536 ∧
      d1.ovflow =
        (if 65536 ≤ hdr.restoredPulses + hdr.pulses then (hdr.ovflow + 1) % 4294967296
         else hdr.ovflow) ∧
      d1.nvHeader.ovflow = d1.ovflow ∧
      d1.nvHeader.pulses = hdr.pulses ∧
      (hdr.ovflow + 1 < 4294967296 →
        d1.ovflow = if 65536 ≤ hdr.restoredPulses + hdr.pulses then hdr.ovflow + 1
          else hdr.ovflow) := by
  dsimp only
  have hb := headerOfBytes_bounds d.fram
  obtain ⟨h1, h2, h3, h4, h5⟩ := setup_power_on crc16 d hv
  rw [h2, h4, h5, h3, h1]
  refine ⟨rfl, rfl, ?_, rfl, rfl, fun hw => ?_⟩
  · split <;> split <;> omega
  · split <;> split <;> omega

set_option maxRecDepth 100000 in
/-- Witness of C5: the header `{ovflow = 5, pulses = 60000, restoredPulses = 10000}` is
restored to `restoredPulses = 4464`, `ovflow = 6`. -/
theorem setup_recovery_witness :
    headerValid ccitt (headerOfBytes (framRead coldBootDevice.fram 0 16)) ∧
      (headerOfBytes (framRead coldBootDevice.fram 0 16)).ovflow = 5 ∧
      (headerOfBytes (framRead coldBootDevice.fram 0 16)).pulses = 60000 ∧
      (headerOfBytes (framRead coldBootDevice.fram 0 16)).restoredPulses = 10000 ∧
      (setup ccitt true true coldBootDevice).restoredPulses = 4464 ∧
      (setup ccitt true true coldBootDevice).ovflow = 6 ∧
      (setup ccitt true true coldBootDevice).nvHeader.ovflow = 6 ∧
      (setup ccitt true true coldBootDevice).nvHeader.pulses = 60000 := by
  have hv : headerValid ccitt (headerOfBytes (framRead coldBootDevice.fram 0 16)) :=
    ⟨by decide, by decide⟩
  have h := setup_recovery ccitt coldBootDevice hv
  dsimp only at h
  have ho : (setup ccitt true true coldBootDevice).ovflow = 6 := h.2.2.1.trans (by decide)
  exact ⟨hv, by decide, by decide, by decide, h.1.trans (by decide), ho,
    h.2.2.2.1.trans ho, h.2.2.2.2.1.trans (by decide)⟩

set_option maxRecDepth 100000 in
/-- Witness of C7: after a log append and after the reboot handler the header image carries
the CRC of its first 14 bytes (here `53771`, the CRC of the all-zero version-0 header
being different). -/
theorem saveNvHeader_image_crc_witness :
    runningDevice.state.NTP_GOT_TIME = true ∧ runningDevice.state.FRAM_PRESENT = true ∧
      crcOk ccitt (saveNvLog ccitt 2720 1000 runningDevice).fram ∧
      crcOk ccitt (handleReboot ccitt runningDevice).fram ∧
      ccitt [0x31, 0x32, 0x33, 0x34, 0x35, 0x36, 0x37, 0x38, 0x39] = 0x29B1 := by
  have h := saveNvHeader_image_crc ccitt runningDevice 2720 1000
  exact ⟨rfl, rfl, h.2.1 rfl, h.2.2.1 rfl, by decide⟩

set_option maxRecDepth 100000 in
/-- Witness of C8: the blank FRAM of `initDevice` (version byte 0) is re-initialised to the
fresh header, whose crc is `53771`; the FRAM so written is then accepted as it is. -/
theorem nvInit_spec_witness :
    ¬ headerValid ccitt (headerOfBytes (framRead initDevice.fram 0 16)) ∧
      (nvInit ccitt initDevice).nvHeader = freshHeader ccitt ∧
      (freshHeader ccitt).crc = 53771 ∧
      headerValid ccitt (headerOfBytes (framRead (nvInit ccitt initDevice).fram 0 16)) ∧
      (nvInit ccitt (nvInit ccitt initDevice)).fram = (nvInit ccitt initDevice).fram := by
  have hbad : ¬ headerValid ccitt (headerOfBytes (framRead initDevice.fram 0 16)) :=
    fun h => absurd h.1 (by decide)
  have h := (nvInit_spec ccitt initDevice).2 hbad
  have hgood : headerValid ccitt (headerOfBytes (framRead (nvInit ccitt initDevice).fram 0 16)) := by
    rw [h.2.1, headerOfBytes_freshHeader]
    exact freshHeader_valid ccitt
  exact ⟨hbad, h.1, by decide, hgood, ((nvInit_spec ccitt (nvInit ccitt initDevice)).1 hgood).2⟩

/-! ## NV store: the log ring -/

theorem appendAt_fields (crc16 : List Nat → Nat) (N : Nat) (d : Device) (x : Sample)
    (hntp : d.state.NTP_GOT_TIME = true) :
    (appendAt crc16 N d x).nvHeader.nvLogLast = (d.nvHeader.nvLogLast + 1) % 65536 % N ∧
      (appendAt crc16 N d x).nvHeader.nvLogFirst =
        (if (d.nvHeader.nvLogLast + 1) % 65536 % N = d.nvHeader.nvLogFirst then
          (d.nvHeader.nvLogFirst + 1) % 65536 % N else d.nvHeader.nvLogFirst) ∧
      (appendAt crc16 N d x).fram.log =
        (fun i => if i = d.nvHeader.nvLogLast then logEntry x else d.fram.log i) ∧
      (appendAt crc16 N d x).state = d.state := by
  unfold appendAt saveNvLog saveNvHeader framWrite logEntry
  simp [hntp]

theorem mod_ne_of_lt (N i k : Nat) (h1 : i < k) (h2 : k < i + N) : i % N ≠ k % N := by
  intro h
  have hd : (k - i) % N = 0 := Nat.sub_mod_eq_zero_of_mod_eq h.symm
  have hlt : (k - i) % N = k - i := Nat.mod_eq_of_lt (by omega)
  omega

theorem ringInv_append (crc16 : List Nat → Nat) (N : Nat) (hN : 0 < N) (hN16 : N < 65536)
    (d : Device) (es : List nvLog) (x : Sample) (h : RingInv N d es) :
    RingInv N (appendAt crc16 N d x) (es ++ [logEntry x]) := by
  obtain ⟨hntp, hlast, hfirst, hlog⟩ := h
  obtain ⟨f1, f2, f3, f4⟩ := appendAt_fields crc16 N d x hntp
  have hk : es.length % N < N := Nat.mod_lt _ hN
  have hlast1 : (d.nvHeader.nvLogLast + 1) % 65536 % N = (es.length + 1) % N := by
    rw [hlast, Nat.mod_eq_of_lt (show es.length % N + 1 < 65536 by omega), Nat.mod_add_mod]
  refine ⟨by rw [f4]; exact hntp, ?_, ?_, ?_⟩
  · rw [f1, hlast1, List.length_append, List.length_singleton]
  · rw [f2, hlast1, hfirst, List.length_append, List.length_singleton]
    by_cases c1 : es.length + 1 < N
    · have e1 : (es.length + 1) % N = es.length + 1 := Nat.mod_eq_of_lt c1
      rw [if_pos (show es.length < N by omega), if_pos c1, e1, if_neg (by omega)]
    · by_cases c2 : es.length + 1 = N
      · have e1 : (es.length + 1) % N = 0 := by rw [c2]; exact Nat.mod_self N
        have e2 : (es.length + 1 + 1) % N = 1 % N := by
          rw [c2]; exact Nat.add_mod_left N 1
        rw [if_pos (show es.length < N by omega), if_neg c1, e1, if_pos rfl, e2]
      · have e3 : ((es.length + 1) % N + 1) % 65536 = (es.length + 1) % N + 1 := by
          have : (es.length + 1) % N < N := Nat.mod_lt _ hN
          exact Nat.mod_eq_of_lt (by omega)
        rw [if_neg (show ¬ es.length < N by omega), if_neg c1, if_pos rfl, e3,
          Nat.mod_add_mod]
  · intro i hi1 hi2
    rw [List.length_append, List.length_singleton] at hi1 hi2
    rw [f3, hlast]
    beta_reduce
    by_cases c : i = es.length
    · subst c
      rw [if_pos rfl, List.getElem?_append_right (Nat.le_refl _)]
      simp
    · have hi : i < es.length := by omega
      rw [if_neg (mod_ne_of_lt N i es.length hi (by omega)), List.getElem?_append_left hi]
      exact hlog i hi (by omega)

theorem ringInv_appendLogs (crc16 : List Nat → Nat) (N : Nat) (hN : 0 < N) (hN16 : N < 65536)
    (d : Device) (hntp : d.state.NTP_GOT_TIME = true) (hf : d.nvHeader.nvLogFirst = 0)
    (hl : d.nvHeader.nvLogLast = 0) (xs : List Sample) :
    RingInv N (appendLogs crc16 N d xs) (xs.map logEntry) := by
  induction xs using List.reverseRecOn with
  | nil =>
    refine ⟨hntp, ?_, ?_, ?_⟩
    · simpa [appendLogs] using hl
    · simpa [appendLogs, hN] using hf
    · intro i hi
      simp at hi
  | append_singleton xs x ih =>
    have := ringInv_append crc16 N hN hN16 _ _ x ih
    simpa [appendLogs, List.foldl_append, List.map_append] using this

theorem drop_of_getElem? {α : Type} (l : List α) (j : Nat) (v : α) (h : l[j]? = some v) :
    l.drop j = v :: l.drop (j + 1) := by
  obtain ⟨hj, hv⟩ := List.getElem?_eq_some.1 h
  rw [List.drop_eq_getElem_cons hj, hv]

theorem readLoop_drop (N : Nat) (hN : 0 < N) (d : Device) (es : List nvLog)
    (h : RingInv N d es) : ∀ (n i : Nat), i + n = retained N es.length →
      readLoop N d i (N - i) = es.drop (es.length - retained N es.length + i) := by
  obtain ⟨_, hlast, hfirst, hlog⟩ := h
  have hm : retained N es.length ≤ N - 1 := by
    unfold retained
    split <;> omega
  have hmk : retained N es.length ≤ es.length := by
    unfold retained
    split <;> omega
  intro n
  induction n with
  | zero =>
    intro i hi
    have hfuel : N - i = (N - i - 1) + 1 := by omega
    have hcond : (i + d.nvHeader.nvLogFirst) % N = d.nvHeader.nvLogLast := by
      rw [hfirst, hlast]
      unfold retained at hi
      by_cases c : es.length < N
      · simp only [if_pos c] at hi ⊢
        have hik : i = es.length := by omega
        rw [Nat.add_zero, hik]
      · simp only [if_neg c] at hi ⊢
        rw [Nat.add_mod_mod]
        have : i + (es.length + 1) = es.length + N := by omega
        rw [this, Nat.add_mod_right]
    rw [hfuel, readLoop, if_pos hcond]
    have : es.length - retained N es.length + i = es.length := by omega
    rw [this, List.drop_length]
  | succ n ih =>
    intro i hi
    have hfuel : N - i = (N - (i + 1)) + 1 := by omega
    have hcond : ¬ (i + d.nvHeader.nvLogFirst) % N = d.nvHeader.nvLogLast := by
      rw [hfirst, hlast]
      unfold retained at hi
      by_cases c : es.length < N
      · simp only [if_pos c] at hi ⊢
        rw [Nat.add_zero, Nat.mod_eq_of_lt (show i < N by omega),
          Nat.mod_eq_of_lt c]
        omega
      · simp only [if_neg c] at hi ⊢
        rw [Nat.add_mod_mod]
        exact Ne.symm (mod_ne_of_lt N es.length (i + (es.length + 1)) (by omega) (by omega))
    have hentry : es[es.length - retained N es.length + i]? =
        some (d.fram.log ((i + d.nvHeader.nvLogFirst) % N)) := by
      rw [hfirst]
      unfold retained at hi ⊢
      by_cases c : es.length < N
      · simp only [if_pos c] at hi ⊢
        have hz : es.length - es.length + i = i := by omega
        have hj := hlog i (by omega) (by omega)
        rw [hz, Nat.add_zero]
        exact hj
      · simp only [if_neg c] at hi ⊢
        rw [Nat.add_mod_mod]
        have hj := hlog (es.length - (N - 1) + i) (by omega) (by omega)
        have : i + (es.length + 1) = es.length - (N - 1) + i + N := by omega
        rw [this, Nat.add_mod_right]
        exact hj
    rw [hfuel, readLoop, if_neg hcond, ih (i + 1) (by omega), drop_of_getElem? _ _ _ hentry]
    rfl

/-- C6. From an empty ring (`nvLogFirst = nvLogLast = 0`) of capacity `N`, after the `k` log
appends `xs` (`saveNvLog` with the NTP flag set): if `k ≤ N - 1` then `nvLogFirst = 0`,
`nvLogLast = k` and the read-out loop of `handleNvData` yields all `k` entries in append
order; if `k ≥ N` the read-out yields exactly the last `N - 1` appended entries, in append
order. -/
theorem ring_readout (crc16 : List Nat → Nat) (N : Nat) (hN : 0 < N) (hN16 : N < 65536)
    (d : Device) (hntp : d.state.NTP_GOT_TIME = true) (hf : d.nvHeader.nvLogFirst = 0)
    (hl : d.nvHeader.nvLogLast = 0) (xs : List Sample) :
    (xs.length ≤ N - 1 →
        (appendLogs crc16 N d xs).nvHeader.nvLogFirst = 0 ∧
          (appendLogs crc16 N d xs).nvHeader.nvLogLast = xs.length ∧
          handleNvData N (appendLogs crc16 N d xs) = xs.map logEntry) ∧
      (N ≤ xs.length →
        handleNvData N (appendLogs crc16 N d xs) =
            (xs.map logEntry).drop (xs.length - (N - 1)) ∧
          (handleNvData N (appendLogs crc16 N d xs)).length = N - 1) := by
  have hinv := ringInv_appendLogs crc16 N hN hN16 d hntp hf hl xs
  have hread := readLoop_drop N hN _ _ hinv (retained N (xs.map logEntry).length) 0
    (by omega)
  rw [Nat.sub_zero, Nat.add_zero, List.length_map] at hread
  obtain ⟨_, hlast, hfirst, _⟩ := hinv
  rw [List.length_map] at hlast hfirst
  refine ⟨fun hk => ?_, fun hk => ?_⟩
  · have hlt : xs.length < N := by omega
    refine ⟨by rw [hfirst, if_pos hlt], by rw [hlast, Nat.mod_eq_of_lt hlt], ?_⟩
    unfold handleNvData
    rw [hread]
    unfold retained
    rw [if_pos hlt, Nat.sub_self, List.drop_zero]
  · have hge : ¬ xs.length < N := by omega
    have hval : handleNvData N (appendLogs crc16 N d xs) =
        (xs.map logEntry).drop (xs.length - (N - 1)) := by
      unfold handleNvData
      rw [hread]
      unfold retained
      rw [if_neg hge]
    refine ⟨hval, ?_⟩
    rw [hval, List.length_drop, List.length_map]
    omega

/-- Witness of C6 with `sizeof(struct nvLog) = 12`, that is `N = 2720`: two appends; and
with `N = 2`: after three appends only the last entry is read. -/
theorem ring_readout_witness :
    0 < NV_LOG_MAX 12 ∧ NV_LOG_MAX 12 < 65536 ∧ runningDevice.state.NTP_GOT_TIME = true ∧
      runningDevice.nvHeader.nvLogFirst = 0 ∧ runningDevice.nvHeader.nvLogLast = 0 ∧
      (appendLogs ccitt (NV_LOG_MAX 12) runningDevice
        [sampleAt 10 5, sampleAt 20 7]).nvHeader.nvLogLast = 2 ∧
      handleNvData (NV_LOG_MAX 12)
          (appendLogs ccitt (NV_LOG_MAX 12) runningDevice [sampleAt 10 5, sampleAt 20 7]) =
        [logEntry (sampleAt 10 5), logEntry (sampleAt 20 7)] ∧
      handleNvData 2
          (appendLogs ccitt 2 runningDevice [sampleAt 10 5, sampleAt 20 7, sampleAt 30 9]) =
        [logEntry (sampleAt 30 9)] := by
  have h := (ring_readout ccitt (NV_LOG_MAX 12) (by decide) (by decide) runningDevice rfl rfl rfl
    [sampleAt 10 5, sampleAt 20 7]).1 (by decide)
  have h2 := (ring_readout ccitt 2 (by decide) (by decide) runningDevice rfl rfl rfl
    [sampleAt 10 5, sampleAt 20 7, sampleAt 30 9]).2 (by decide)
  exact ⟨by decide, by decide, rfl, rfl, rfl, h.2.1, h.2.2, h2.1⟩

/-! ## The scheduler (`main.cpp`: `checkSchedule`) -/

theorem drawOffset_range (u : ℚ) (h0 : 0 ≤ u) (h1 : u < 1) :
    -900 ≤ drawOffset u ∧ drawOffset u < 900 := by
  unfold drawOffset
  constructor
  · rw [Int.le_floor]
    push_cast
    linarith
  · rw [Int.floor_lt]
    push_cast
    linarith

theorem checkSchedule_stages (localtime : Int → tm) (x : Tick) (d : Device)
    (hen : d.cfg.flags &&& CFG_SCHEDULE ≠ 0) :
    checkSchedule localtime x d =
      switchRelay
        (onMatch ((redraw (localtime x.t) x d).cfg.schedule (redraw (localtime x.t) x d).wday)
          (if ((redraw (localtime x.t) x d).cfg.schedule (localtime x.t).tm_wday).flags &&&
              SCHED_RANDOM != 0 then
            localtime (x.t + (redraw (localtime x.t) x d).offset_on) else localtime x.t))
        (offMatch ((redraw (localtime x.t) x d).cfg.schedule (redraw (localtime x.t) x d).wday)
          (if ((redraw (localtime x.t) x d).cfg.schedule (localtime x.t).tm_wday).flags &&&
              SCHED_RANDOM != 0 then
            localtime (x.t + (redraw (localtime x.t) x d).offset_off) else localtime x.t))
        (redraw (localtime x.t) x d) := by
  have hsum : ∀ a b : Int, x.t + a + (b - a) = x.t + b := fun a b => by omega
  unfold checkSchedule switchRelay onMatch offMatch
  simp only [hen, if_false, hsum, Bool.and_assoc]
  rfl

theorem switchRelay_fields (a b : Bool) (d : Device) :
    (switchRelay a b d).cfg = d.cfg ∧ (switchRelay a b d).offset_on = d.offset_on ∧
      (switchRelay a b d).offset_off = d.offset_off ∧ (switchRelay a b d).wday = d.wday ∧
      (switchRelay a b d).state.RELAY = relayStep a b d.state.RELAY := by
  unfold switchRelay relayStep
  split
  · simp
  · split <;> simp

theorem redraw_fields (tm0 : tm) (x : Tick) (d : Device) (hwd : tm0.tm_wday < 7) :
    (redraw tm0 x d).cfg = d.cfg ∧ (redraw tm0 x d).state = d.state ∧
      (redraw tm0 x d).wday = tm0.tm_wday ∧
      (redraw tm0 x d).offset_on = (if d.wday ≠ tm0.tm_wday then drawOffset x.u1 else d.offset_on) ∧
      (redraw tm0 x d).offset_off =
        (if d.wday ≠ tm0.tm_wday then drawOffset x.u2 else d.offset_off) := by
  have hmod : tm0.tm_wday % 256 = tm0.tm_wday := by omega
  unfold redraw drawOffset
  by_cases hw : d.wday = tm0.tm_wday
  · simp [hw]
  · simp [hw, hmod]

theorem checkSchedule_plain (localtime : Int → tm) (x : Tick) (d : Device)
    (hen : d.cfg.flags &&& CFG_SCHEDULE ≠ 0) (hwd : (localtime x.t).tm_wday < 7)
    (hrnd : (d.cfg.schedule (localtime x.t).tm_wday).flags &&& SCHED_RANDOM = 0) :
    (checkSchedule localtime x d).cfg = d.cfg ∧
      (checkSchedule localtime x d).state.RELAY =
        relayStep (onMatch (d.cfg.schedule (localtime x.t).tm_wday) (localtime x.t))
          (offMatch (d.cfg.schedule (localtime x.t).tm_wday) (localtime x.t)) d.state.RELAY := by
  obtain ⟨r1, r2, r3, _, _⟩ := redraw_fields (localtime x.t) x d hwd
  have hst := checkSchedule_stages localtime x d hen
  rw [r1, r3] at hst
  have hb : ((d.cfg.schedule (localtime x.t).tm_wday).flags &&& SCHED_RANDOM != 0) = false := by
    simpa using hrnd
  rw [hb] at hst
  simp only [Bool.false_eq_true, if_false] at hst
  obtain ⟨s1, _, _, _, s5⟩ := switchRelay_fields
    (onMatch (d.cfg.schedule (localtime x.t).tm_wday) (localtime x.t))
    (offMatch (d.cfg.schedule (localtime x.t).tm_wday) (localtime x.t))
    (redraw (localtime x.t) x d)
  rw [← hst] at s1 s5
  rw [s1, s5, r1, r2]
  exact ⟨rfl, rfl⟩

theorem relayStep_edges (localtime : Int → tm) (m : tm) (hwd : m.tm_wday < 7) (a b : Bool)
    (hab : ¬ (a = true ∧ b = true)) (ticks : List Tick) : ∀ (d : Device),
    d.cfg.flags &&& CFG_SCHEDULE ≠ 0 →
    (d.cfg.schedule m.tm_wday).flags &&& SCHED_RANDOM = 0 →
    onMatch (d.cfg.schedule m.tm_wday) m = a → offMatch (d.cfg.schedule m.tm_wday) m = b →
    (∀ x ∈ ticks, localtime x.t = m) →
      risingFrom d.state.RELAY (relayAfter localtime d ticks) ≤
          (if a = true ∧ d.state.RELAY = false then 1 else 0) ∧
        fallingFrom d.state.RELAY (relayAfter localtime d ticks) ≤
          (if b = true ∧ d.state.RELAY = true then 1 else 0) := by
  induction ticks with
  | nil =>
    intro d _ _ _ _ _
    exact ⟨Nat.zero_le _, Nat.zero_le _⟩
  | cons x xs ih =>
    intro d hen hrnd ha hb hm
    have hx : localtime x.t = m := hm x (List.mem_cons_self _ _)
    obtain ⟨hcfg, hrel⟩ := checkSchedule_plain localtime x d hen (by rw [hx]; exact hwd)
      (by rw [hx]; exact hrnd)
    rw [hx, ha, hb] at hrel
    have hrec := ih (checkSchedule localtime x d) (by rw [hcfg]; exact hen)
      (by rw [hcfg]; exact hrnd) (by rw [hcfg]; exact ha) (by rw [hcfg]; exact hb)
      (fun y hy => hm y (List.mem_cons_of_mem _ hy))
    simp only [relayAfter, risingFrom, fallingFrom]
    rw [hrel] at hrec ⊢
    revert hrec
    cases a <;> cases b <;> cases d.state.RELAY <;> simp [relayStep] at hab ⊢

/-- C9 (amended). With the schedule enabled and the day's randomize bit clear, for every day
schedule that does not enable an on-time and an off-time in the same minute, and every run
of consecutive `checkSchedule` ticks whose wall-clock times fall in one minute `m` (the relay
flag written by nothing else in between), the relay makes at most one off-to-on and at most
one on-to-off transition. -/
theorem checkSchedule_once_per_minute (localtime : Int → tm) (m : tm) (d : Device)
    (ticks : List Tick) (hwd : m.tm_wday < 7)
    (hen : d.cfg.flags &&& CFG_SCHEDULE ≠ 0)
    (hrnd : (d.cfg.schedule m.tm_wday).flags &&& SCHED_RANDOM = 0)
    (hminute : ∀ x ∈ ticks, localtime x.t = m)
    (hdiff : ¬ ((d.cfg.schedule m.tm_wday).flags &&& SCHED_ON_ENABLED ≠ 0 ∧
      (d.cfg.schedule m.tm_wday).flags &&& SCHED_OFF_ENABLED ≠ 0 ∧
      (d.cfg.schedule m.tm_wday).h_on = (d.cfg.schedule m.tm_wday).h_off ∧
      (d.cfg.schedule m.tm_wday).m_on = (d.cfg.schedule m.tm_wday).m_off)) :
    risingFrom d.state.RELAY (relayAfter localtime d ticks) ≤ 1 ∧
      fallingFrom d.state.RELAY (relayAfter localtime d ticks) ≤ 1 := by
  have hab : ¬ (onMatch (d.cfg.schedule m.tm_wday) m = true ∧
      offMatch (d.cfg.schedule m.tm_wday) m = true) := by
    rintro ⟨h1, h2⟩
    simp only [onMatch, offMatch, Bool.and_eq_true, bne_iff_ne, beq_iff_eq] at h1 h2
    exact hdiff ⟨h1.1.1, h2.1.1, h1.1.2.symm.trans h2.1.2, h1.2.symm.trans h2.2⟩
  have h := relayStep_edges localtime m hwd _ _ hab ticks d hen hrnd rfl rfl hminute
  refine ⟨le_trans h.1 ?_, le_trans h.2 ?_⟩ <;> split <;> omega

/-- C9 fails as stated: with on-time and off-time both enabled at `00:00`, three ticks within
the minute 00:00 switch the relay on, off and on again: two off-to-on transitions. -/
theorem checkSchedule_oscillates :
    oscDevice.cfg.flags &&& CFG_SCHEDULE ≠ 0 ∧
      (oscDevice.cfg.schedule 4).flags &&& SCHED_RANDOM = 0 ∧
      (∀ x ∈ oscTicks, utc x.t = { tm_wday := 4, tm_hour := 0, tm_min := 0 }) ∧
      oscDevice.state.RELAY = false ∧
      relayAfter utc oscDevice oscTicks = [true, false, true] ∧
      ¬ risingFrom oscDevice.state.RELAY (relayAfter utc oscDevice oscTicks) ≤ 1 := by
  decide

/-- Witness of C9 (amended): three ticks within 08:00 UTC of a Thursday switch the relay on
once. -/
theorem checkSchedule_once_per_minute_witness :
    relayAfter utc plainDevice
        [{ t := 28800, u1 := 0, u2 := 0 }, { t := 28801, u1 := 0, u2 := 0 },
          { t := 28802, u1 := 0, u2 := 0 }] = [true, true, true] ∧
      risingFrom plainDevice.state.RELAY (relayAfter utc plainDevice
        [{ t := 28800, u1 := 0, u2 := 0 }, { t := 28801, u1 := 0, u2 := 0 },
          { t := 28802, u1 := 0, u2 := 0 }]) ≤ 1 :=
  ⟨by decide,
    (checkSchedule_once_per_minute utc { tm_wday := 4, tm_hour := 8, tm_min := 0 } plainDevice
      [{ t := 28800, u1 := 0, u2 := 0 }, { t := 28801, u1 := 0, u2 := 0 },
        { t := 28802, u1 := 0, u2 := 0 }] (by decide) (by decide) (by decide) (by decide)
      (by decide)).1⟩

theorem checkSchedule_random (localtime : Int → tm) (x : Tick) (d : Device)
    (hen : d.cfg.flags &&& CFG_SCHEDULE ≠ 0) (hwd : (localtime x.t).tm_wday < 7)
    (hrnd : (d.cfg.schedule (localtime x.t).tm_wday).flags &&& SCHED_RANDOM ≠ 0) :
    (checkSchedule localtime x d).offset_on =
        (if d.wday ≠ (localtime x.t).tm_wday then drawOffset x.u1 else d.offset_on) ∧
      (checkSchedule localtime x d).offset_off =
        (if d.wday ≠ (localtime x.t).tm_wday then drawOffset x.u2 else d.offset_off) ∧
      (checkSchedule localtime x d).state.RELAY =
        relayStep
          (onMatch (d.cfg.schedule (localtime x.t).tm_wday)
            (localtime (x.t + (checkSchedule localtime x d).offset_on)))
          (offMatch (d.cfg.schedule (localtime x.t).tm_wday)
            (localtime (x.t + (checkSchedule localtime x d).offset_off)))
          d.state.RELAY := by
  obtain ⟨r1, r2, r3, r4, r5⟩ := redraw_fields (localtime x.t) x d hwd
  have hst := checkSchedule_stages localtime x d hen
  rw [r1, r3] at hst
  have hb : ((d.cfg.schedule (localtime x.t).tm_wday).flags &&& SCHED_RANDOM != 0) = true := by
    simpa using hrnd
  rw [hb] at hst
  simp only [if_true] at hst
  obtain ⟨_, s2, s3, _, s5⟩ := switchRelay_fields
    (onMatch (d.cfg.schedule (localtime x.t).tm_wday)
      (localtime (x.t + (redraw (localtime x.t) x d).offset_on)))
    (offMatch (d.cfg.schedule (localtime x.t).tm_wday)
      (localtime (x.t + (redraw (localtime x.t) x d).offset_off)))
    (redraw (localtime x.t) x d)
  rw [← hst] at s2 s3 s5
  rw [s2, s3, s5, r2]
  exact ⟨r4, r5, rfl⟩

theorem utc_before_trigger (t : Int) (h0 : 0 ≤ t) (h1 : t < 29700) :
    ¬ ((utc (t + -900)).tm_hour = 8 ∧ (utc (t + -900)).tm_min = 0) := by
  simp only [utc]
  omega

theorem utc_thursday (t : Int) (h0 : 0 ≤ t) (h1 : t < 86400) : (utc t).tm_wday = 4 := by
  simp only [utc]
  omega

theorem checkSchedule_cfg (localtime : Int → tm) (x : Tick) (d : Device)
    (hen : d.cfg.flags &&& CFG_SCHEDULE ≠ 0) (hwd : (localtime x.t).tm_wday < 7) :
    (checkSchedule localtime x d).cfg = d.cfg ∧
      (checkSchedule localtime x d).wday = (localtime x.t).tm_wday := by
  obtain ⟨r1, _, r3, _, _⟩ := redraw_fields (localtime x.t) x d hwd
  rw [checkSchedule_stages localtime x d hen]
  obtain ⟨s1, _, _, s4, _⟩ := switchRelay_fields
    (onMatch ((redraw (localtime x.t) x d).cfg.schedule (redraw (localtime x.t) x d).wday)
      (if ((redraw (localtime x.t) x d).cfg.schedule (localtime x.t).tm_wday).flags &&&
          SCHED_RANDOM != 0 then
        localtime (x.t + (redraw (localtime x.t) x d).offset_on) else localtime x.t))
    (offMatch ((redraw (localtime x.t) x d).cfg.schedule (redraw (localtime x.t) x d).wday)
      (if ((redraw (localtime x.t) x d).cfg.schedule (localtime x.t).tm_wday).flags &&&
          SCHED_RANDOM != 0 then
        localtime (x.t + (redraw (localtime x.t) x d).offset_off) else localtime x.t))
    (redraw (localtime x.t) x d)
  exact ⟨s1.trans r1, s4.trans r3⟩

theorem drawOffset_zero : drawOffset 0 = -900 := by
  unfold drawOffset
  norm_num

theorem rndDay_fields :
    rndDay.cfg = rndDevice.cfg ∧ rndDay.wday = 4 ∧ rndDay.offset_on = -900 ∧
      rndDay.offset_off = -900 ∧ rndDay.state.RELAY = false := by
  have hen : rndDevice.cfg.flags &&& CFG_SCHEDULE ≠ 0 := by decide
  have hwd : (utc 0).tm_wday < 7 := by decide
  have hrnd : (rndDevice.cfg.schedule (utc 0).tm_wday).flags &&& SCHED_RANDOM ≠ 0 := by decide
  obtain ⟨c1, c2⟩ := checkSchedule_cfg utc { t := 0, u1 := 0, u2 := 0 } rndDevice hen hwd
  obtain ⟨h1, h2, h3⟩ := checkSchedule_random utc { t := 0, u1 := 0, u2 := 0 } rndDevice
    hen hwd hrnd
  have hne : rndDevice.wday ≠ (utc 0).tm_wday := by decide
  rw [if_pos hne, drawOffset_zero] at h1 h2
  refine ⟨c1, c2, h1, h2, ?_⟩
  show (checkSchedule utc { t := 0, u1 := 0, u2 := 0 } rndDevice).state.RELAY = false
  rw [h3, h1, h2]
  decide

theorem minute_window (T0 t o : Int) (h m hour min : Nat)
    (hh : hour = ((t + o - T0) / 3600 % 24).toNat) (hm : min = ((t + o - T0) / 60 % 60).toNat)
    (ht0 : T0 ≤ t) (ht1 : t < T0 + 86400) (h24 : h < 24) (m60 : m < 60)
    (hlo : T0 ≤ T0 + 3600 * (h : Int) + 60 * (m : Int) - o)
    (hhi : T0 + 3600 * (h : Int) + 60 * (m : Int) - o + 60 ≤ T0 + 86400) :
    (hour = h ∧ min = m) ↔
      (T0 + 3600 * (h : Int) + 60 * (m : Int) - o ≤ t ∧
        t < T0 + 3600 * (h : Int) + 60 * (m : Int) - o + 60) := by
  subst hh hm
  omega

theorem checkSchedule_day (localtime : Int → tm) (T0 : Int) (w : Nat) (e : Device) (y : Tick)
    (hw7 : w < 7)
    (hwd : ∀ s : Int, T0 ≤ s → s < T0 + 86400 → (localtime s).tm_wday = w)
    (hen : e.cfg.flags &&& CFG_SCHEDULE ≠ 0)
    (hrnd : (e.cfg.schedule w).flags &&& SCHED_RANDOM ≠ 0)
    (hy : T0 ≤ y.t ∧ y.t < T0 + 86400) :
    (checkSchedule localtime y e).cfg = e.cfg ∧ (checkSchedule localtime y e).wday = w ∧
      (checkSchedule localtime y e).offset_on =
        (if e.wday ≠ w then drawOffset y.u1 else e.offset_on) ∧
      (checkSchedule localtime y e).offset_off =
        (if e.wday ≠ w then drawOffset y.u2 else e.offset_off) ∧
      (checkSchedule localtime y e).state.RELAY =
        relayStep
          (onMatch (e.cfg.schedule w)
            (localtime (y.t + (checkSchedule localtime y e).offset_on)))
          (offMatch (e.cfg.schedule w)
            (localtime (y.t + (checkSchedule localtime y e).offset_off)))
          e.state.RELAY := by
  have hw : (localtime y.t).tm_wday = w := hwd y.t hy.1 hy.2
  obtain ⟨c1, c2⟩ := checkSchedule_cfg localtime y e hen (by rw [hw]; exact hw7)
  obtain ⟨h1, h2, h3⟩ := checkSchedule_random localtime y e hen (by rw [hw]; exact hw7)
    (by rw [hw]; exact hrnd)
  rw [hw] at c2 h1 h2 h3
  exact ⟨c1, c2, h1, h2, h3⟩

theorem scheduleRun_day (localtime : Int → tm) (T0 : Int) (w : Nat) (hw7 : w < 7)
    (hwd : ∀ s : Int, T0 ≤ s → s < T0 + 86400 → (localtime s).tm_wday = w)
    (ticks : List Tick) : ∀ (e : Device), e.wday = w →
    e.cfg.flags &&& CFG_SCHEDULE ≠ 0 → (e.cfg.schedule w).flags &&& SCHED_RANDOM ≠ 0 →
    (∀ z ∈ ticks, T0 ≤ z.t ∧ z.t < T0 + 86400) →
      (scheduleRun localtime e ticks).cfg = e.cfg ∧ (scheduleRun localtime e ticks).wday = w ∧
        (scheduleRun localtime e ticks).offset_on = e.offset_on ∧
        (scheduleRun localtime e ticks).offset_off = e.offset_off := by
  induction ticks with
  | nil =>
    intro e hw _ _ _
    exact ⟨rfl, hw, rfl, rfl⟩
  | cons y ys ih =>
    intro e hw hen hrnd hin
    obtain ⟨c1, c2, c3, c4, _⟩ := checkSchedule_day localtime T0 w e y hw7 hwd hen hrnd
      (hin y (List.mem_cons_self _ _))
    obtain ⟨i1, i2, i3, i4⟩ := ih (checkSchedule localtime y e) c2 (by rw [c1]; exact hen)
      (by rw [c1]; exact hrnd) (fun z hz => hin z (List.mem_cons_of_mem _ hz))
    rw [if_neg (not_not.2 hw)] at c3 c4
    exact ⟨i1.trans c1, i2, i3.trans c3, i4.trans c4⟩

theorem onMatch_window (localtime : Int → tm) (T0 t o : Int) (sch : schedule)
    (hloc : ∀ s : Int, T0 - 900 ≤ s → s < T0 + 86400 + 900 →
      (localtime s).tm_hour = ((s - T0) / 3600 % 24).toNat ∧
        (localtime s).tm_min = ((s - T0) / 60 % 60).toNat)
    (ht0 : T0 ≤ t) (ht1 : t < T0 + 86400) (ho0 : -900 ≤ o) (ho1 : o < 900) :
    (sch.h_on < 24 → sch.m_on < 60 →
      T0 ≤ T0 + 3600 * (sch.h_on : Int) + 60 * (sch.m_on : Int) - o →
      T0 + 3600 * (sch.h_on : Int) + 60 * (sch.m_on : Int) - o + 60 ≤ T0 + 86400 →
      (onMatch sch (localtime (t + o)) = true ↔
        sch.flags &&& SCHED_ON_ENABLED ≠ 0 ∧
          T0 + 3600 * (sch.h_on : Int) + 60 * (sch.m_on : Int) - o ≤ t ∧
          t < T0 + 3600 * (sch.h_on : Int) + 60 * (sch.m_on : Int) - o + 60)) ∧
    (sch.h_off < 24 → sch.m_off < 60 →
      T0 ≤ T0 + 3600 * (sch.h_off : Int) + 60 * (sch.m_off : Int) - o →
      T0 + 3600 * (sch.h_off : Int) + 60 * (sch.m_off : Int) - o + 60 ≤ T0 + 86400 →
      (offMatch sch (localtime (t + o)) = true ↔
        sch.flags &&& SCHED_OFF_ENABLED ≠ 0 ∧
          T0 + 3600 * (sch.h_off : Int) + 60 * (sch.m_off : Int) - o ≤ t ∧
          t < T0 + 3600 * (sch.h_off : Int) + 60 * (sch.m_off : Int) - o + 60)) := by
  obtain ⟨l1, l2⟩ := hloc (t + o) (by omega) (by omega)
  constructor
  · intro h24 m60 hlo hhi
    have hw := minute_window T0 t o sch.h_on sch.m_on _ _ l1 l2 ht0 ht1 h24 m60 hlo hhi
    simp only [onMatch, Bool.and_eq_true, bne_iff_ne, beq_iff_eq, and_assoc]
    rw [← hw]
  · intro h24 m60 hlo hhi
    have hw := minute_window T0 t o sch.h_off sch.m_off _ _ l1 l2 ht0 ht1 h24 m60 hlo hhi
    simp only [offMatch, Bool.and_eq_true, bne_iff_ne, beq_iff_eq, and_assoc]
    rw [← hw]


/-- C10 (amended). Let `[T0, T0 + 86400)` be a local day of weekday `w` (local midnight at
`T0`, no clock change within 15 minutes of it) whose randomize bit is set, and `x :: rest` a
run of `checkSchedule` ticks within that day, the PRNG outputs of the first tick in `[0,1)`.
The first tick redraws the offsets when the remembered weekday differs from `w` and keeps
them otherwise; every later tick of the run leaves them as the first tick left them. With
`Con = T0 + 3600 * h_on + 60 * m_on` the configured on-instant of the day, the first instant
of the matching minute is `Con - offset_on`, which lies in `(Con - 900 s, Con + 900 s]`:
provided that minute `[Con - offset_on, Con - offset_on + 60)` is within the day, a tick of
the run that finds the relay off switches it on exactly when the on-time is enabled and its
wall time is in that minute. The same holds for the off-time with `offset_off`. -/
theorem checkSchedule_random_window (localtime : Int → tm) (T0 : Int) (w : Nat) (d : Device)
    (x : Tick) (rest : List Tick) (hw7 : w < 7)
    (hwd : ∀ s : Int, T0 ≤ s → s < T0 + 86400 → (localtime s).tm_wday = w)
    (hloc : ∀ s : Int, T0 - 900 ≤ s → s < T0 + 86400 + 900 →
      (localtime s).tm_hour = ((s - T0) / 3600 % 24).toNat ∧
        (localtime s).tm_min = ((s - T0) / 60 % 60).toNat)
    (hen : d.cfg.flags &&& CFG_SCHEDULE ≠ 0)
    (hrnd : (d.cfg.schedule w).flags &&& SCHED_RANDOM ≠ 0)
    (hticks : ∀ z ∈ x :: rest, T0 ≤ z.t ∧ z.t < T0 + 86400)
    (hu : 0 ≤ x.u1 ∧ x.u1 < 1 ∧ 0 ≤ x.u2 ∧ x.u2 < 1)
    (hoff : d.wday = w →
      -900 ≤ d.offset_on ∧ d.offset_on < 900 ∧ -900 ≤ d.offset_off ∧ d.offset_off < 900) :
    let sch := d.cfg.schedule w
    let d1 := checkSchedule localtime x d
    let Con : Int := T0 + 3600 * (sch.h_on : Int) + 60 * (sch.m_on : Int)
    let Coff : Int := T0 + 3600 * (sch.h_off : Int) + 60 * (sch.m_off : Int)
    (d.wday ≠ w → d1.offset_on = drawOffset x.u1 ∧ d1.offset_off = drawOffset x.u2) ∧
      (d.wday = w → d1.offset_on = d.offset_on ∧ d1.offset_off = d.offset_off) ∧
      (Con - 900 < Con - d1.offset_on ∧ Con - d1.offset_on ≤ Con + 900) ∧
      (Coff - 900 < Coff - d1.offset_off ∧ Coff - d1.offset_off ≤ Coff + 900) ∧
      (∀ (pre : List Tick) (y : Tick) (suf : List Tick), x :: rest = pre ++ y :: suf →
        (checkSchedule localtime y (scheduleRun localtime d pre)).offset_on = d1.offset_on ∧
          (checkSchedule localtime y (scheduleRun localtime d pre)).offset_off =
            d1.offset_off ∧
          (sch.h_on < 24 → sch.m_on < 60 → T0 ≤ Con - d1.offset_on →
            Con - d1.offset_on + 60 ≤ T0 + 86400 →
            (scheduleRun localtime d pre).state.RELAY = false →
            ((checkSchedule localtime y (scheduleRun localtime d pre)).state.RELAY = true ↔
              sch.flags &&& SCHED_ON_ENABLED ≠ 0 ∧ Con - d1.offset_on ≤ y.t ∧
                y.t < Con - d1.offset_on + 60)) ∧
          (sch.h_off < 24 → sch.m_off < 60 → T0 ≤ Coff - d1.offset_off →
            Coff - d1.offset_off + 60 ≤ T0 + 86400 →
            (scheduleRun localtime d pre).state.RELAY = true →
            ((checkSchedule localtime y (scheduleRun localtime d pre)).state.RELAY = false ↔
              sch.flags &&& SCHED_OFF_ENABLED ≠ 0 ∧ Coff - d1.offset_off ≤ y.t ∧
                y.t < Coff - d1.offset_off + 60))) := by
  intro sch d1 Con Coff
  have hx := hticks x (List.mem_cons_self _ _)
  obtain ⟨c1, c2, c3, c4, _⟩ := checkSchedule_day localtime T0 w d x hw7 hwd hen hrnd hx
  have hr1 := drawOffset_range x.u1 hu.1 hu.2.1
  have hr2 := drawOffset_range x.u2 hu.2.2.1 hu.2.2.2
  have hon : -900 ≤ d1.offset_on ∧ d1.offset_on < 900 := by
    show -900 ≤ (checkSchedule localtime x d).offset_on ∧
      (checkSchedule localtime x d).offset_on < 900
    rw [c3]
    split
    · exact hr1
    · rename_i hw
      exact ⟨(hoff (not_not.1 hw)).1, (hoff (not_not.1 hw)).2.1⟩
  have hof : -900 ≤ d1.offset_off ∧ d1.offset_off < 900 := by
    show -900 ≤ (checkSchedule localtime x d).offset_off ∧
      (checkSchedule localtime x d).offset_off < 900
    rw [c4]
    split
    · exact hr2
    · rename_i hw
      exact ⟨(hoff (not_not.1 hw)).2.2.1, (hoff (not_not.1 hw)).2.2.2⟩
  -- every tick of the run starts from a state with the configuration of `d` and ends with
  -- the offsets of `d1`
  have hrun : ∀ (pre : List Tick) (y : Tick) (suf : List Tick), x :: rest = pre ++ y :: suf →
      (scheduleRun localtime d pre).cfg = d.cfg ∧
        (T0 ≤ y.t ∧ y.t < T0 + 86400) ∧
        (checkSchedule localtime y (scheduleRun localtime d pre)).offset_on = d1.offset_on ∧
        (checkSchedule localtime y (scheduleRun localtime d pre)).offset_off =
          d1.offset_off := by
    intro pre y suf hsplit
    have hy : T0 ≤ y.t ∧ y.t < T0 + 86400 := hticks y (by rw [hsplit]; simp)
    cases pre with
    | nil =>
      have hxy : x = y := (List.cons.inj hsplit).1
      subst hxy
      exact ⟨rfl, hy, rfl, rfl⟩
    | cons p ps =>
      have hxp : x = p := (List.cons.inj hsplit).1
      have hrest : rest = ps ++ y :: suf := (List.cons.inj hsplit).2
      subst hxp
      obtain ⟨r1, r2, r3, r4⟩ := scheduleRun_day localtime T0 w hw7 hwd ps
        (checkSchedule localtime x d) c2 (by rw [c1]; exact hen) (by rw [c1]; exact hrnd)
        (fun z hz => hticks z (by rw [hrest]; simp [hz]))
      have e0 : scheduleRun localtime d (x :: ps) =
          scheduleRun localtime (checkSchedule localtime x d) ps := rfl
      rw [e0]
      obtain ⟨_, _, k3, k4, _⟩ := checkSchedule_day localtime T0 w
        (scheduleRun localtime (checkSchedule localtime x d) ps) y hw7 hwd
        (by rw [r1, c1]; exact hen) (by rw [r1, c1]; exact hrnd) hy
      rw [if_neg (not_not.2 r2)] at k3 k4
      exact ⟨r1.trans c1, hy, k3.trans r3, k4.trans r4⟩
  refine ⟨fun hw => ?_, fun hw => ?_, by omega, by omega, fun pre y suf hsplit => ?_⟩
  · show (checkSchedule localtime x d).offset_on = _ ∧ (checkSchedule localtime x d).offset_off = _
    rw [c3, c4, if_pos hw, if_pos hw]
    exact ⟨rfl, rfl⟩
  · show (checkSchedule localtime x d).offset_on = _ ∧ (checkSchedule localtime x d).offset_off = _
    rw [c3, c4, if_neg (not_not.2 hw), if_neg (not_not.2 hw)]
    exact ⟨rfl, rfl⟩
  · obtain ⟨q1, hy, q3, q4⟩ := hrun pre y suf hsplit
    obtain ⟨_, _, _, _, k5⟩ := checkSchedule_day localtime T0 w (scheduleRun localtime d pre) y
      hw7 hwd (by rw [q1]; exact hen) (by rw [q1]; exact hrnd) hy
    rw [q1, q3, q4] at k5
    obtain ⟨won, _⟩ := onMatch_window localtime T0 y.t d1.offset_on sch hloc hy.1 hy.2 hon.1
      hon.2
    obtain ⟨_, woff⟩ := onMatch_window localtime T0 y.t d1.offset_off sch hloc hy.1 hy.2 hof.1
      hof.2
    refine ⟨q3, q4, fun h24 m60 hlo hhi hr => ?_, fun h24 m60 hlo hhi hr => ?_⟩
    · rw [k5, hr, ← won h24 m60 hlo hhi]
      unfold relayStep
      cases onMatch sch (localtime (y.t + d1.offset_on)) <;> simp
    · rw [k5, hr, ← woff h24 m60 hlo hhi]
      unfold relayStep
      cases offMatch sch (localtime (y.t + d1.offset_off)) <;> simp


/-- C10 fails as stated: with the PRNG output 0 the offset is `-900`, and the on-time 08:00
(the instant 28800 of the day) first matches at the tick of wall time 28800 + 900, which is
not in `[28800 - 900, 28800 + 900)`; no earlier tick of the day switches the relay on. -/
theorem checkSchedule_random_late :
    (rndDevice.cfg.schedule 4).flags &&& SCHED_RANDOM ≠ 0 ∧
      drawOffset 0 = -900 ∧ rndDay.offset_on = -900 ∧ rndDay.state.RELAY = false ∧
      (utc 28800).tm_hour = 8 ∧ (utc 28800).tm_min = 0 ∧
      (∀ (t : Int) (u1 u2 : ℚ), 0 ≤ t → t < 28800 + 900 →
        (checkSchedule utc { t := t, u1 := u1, u2 := u2 } rndDay).state.RELAY = false ∧
          (checkSchedule utc { t := t, u1 := u1, u2 := u2 } rndDay).offset_on = -900) ∧
      (checkSchedule utc { t := 28800 + 900, u1 := 0, u2 := 0 } rndDay).state.RELAY = true ∧
      ¬ (28800 - 900 ≤ (28800 + 900 : Int) ∧ (28800 + 900 : Int) < 28800 + 900) := by
  obtain ⟨f1, f2, f3, f4, f5⟩ := rndDay_fields
  have hen : rndDay.cfg.flags &&& CFG_SCHEDULE ≠ 0 := by rw [f1]; decide
  have hstep : ∀ (t : Int) (u1 u2 : ℚ), 0 ≤ t → t < 86400 →
      (checkSchedule utc { t := t, u1 := u1, u2 := u2 } rndDay).offset_on = -900 ∧
        (checkSchedule utc { t := t, u1 := u1, u2 := u2 } rndDay).state.RELAY =
          relayStep (onMatch (rndDevice.cfg.schedule 4) (utc (t + -900)))
            (offMatch (rndDevice.cfg.schedule 4) (utc (t + -900))) false := by
    intro t u1 u2 h0 h1
    have hw : (utc t).tm_wday = 4 := utc_thursday t h0 h1
    obtain ⟨h1, h2, h3⟩ := checkSchedule_random utc { t := t, u1 := u1, u2 := u2 } rndDay hen
      (by show (utc t).tm_wday < 7; omega)
      (by show (rndDay.cfg.schedule (utc t).tm_wday).flags &&& SCHED_RANDOM ≠ 0
          rw [f1, hw]; decide)
    have hsame : ¬ rndDay.wday ≠ (utc t).tm_wday := by rw [f2, hw]; exact not_not.2 rfl
    simp only [if_neg hsame, f3, f4] at h1 h2
    rw [h3, h1, h2, f1, f5]
    exact ⟨rfl, by rw [hw]⟩
  refine ⟨by decide, drawOffset_zero, f3, f5, by decide, by decide, ?_, ?_, by decide⟩
  · intro t u1 u2 h0 h1
    obtain ⟨g1, g2⟩ := hstep t u1 u2 h0 (by omega)
    refine ⟨?_, g1⟩
    rw [g2]
    have hno := utc_before_trigger t h0 (by omega)
    have : onMatch (rndDevice.cfg.schedule 4) (utc (t + -900)) = false := by
      simp only [onMatch, rndDevice, Bool.and_eq_false_iff, beq_eq_false_iff_ne]
      by_cases hh : (utc (t + -900)).tm_hour = 8
      · exact Or.inr (fun hm => hno ⟨hh, hm⟩)
      · exact Or.inl (Or.inr hh)
    rw [this]
    rfl
  · obtain ⟨_, g2⟩ := hstep (28800 + 900) 0 0 (by decide) (by decide)
    rw [g2]
    decide

theorem utc_local (s : Int) :
    (utc s).tm_hour = ((s - 0) / 3600 % 24).toNat ∧
      (utc s).tm_min = ((s - 0) / 60 % 60).toNat := by
  simp [utc]

/-- Witness of C10 (amended): from reset, the first tick of Thursday draws the offsets
`-900`; the tick at 08:15:00 UTC (wall time `28800 + 900`), whose own PRNG outputs are not
used, keeps them and switches the relay on. -/
theorem checkSchedule_random_window_witness :
    rndDevice.wday ≠ 4 ∧ rndDevice.state.RELAY = false ∧
      (scheduleRun utc rndDevice [dayStart]).offset_on = -900 ∧
      (scheduleRun utc rndDevice [dayStart, { t := 29700, u1 := 1 / 2, u2 := 1 / 2 }]).offset_on
        = -900 ∧
      (scheduleRun utc rndDevice [dayStart]).state.RELAY = false ∧
      (scheduleRun utc rndDevice
        [dayStart, { t := 29700, u1 := 1 / 2, u2 := 1 / 2 }]).state.RELAY = true := by
  have h := checkSchedule_random_window utc 0 4 rndDevice dayStart
    [{ t := 29700, u1 := 1 / 2, u2 := 1 / 2 }] (by decide)
    (fun s h0 h1 => utc_thursday s h0 h1) (fun s _ _ => utc_local s) (by decide) (by decide)
    (by
      intro z hz
      simp only [List.mem_cons, List.mem_singleton, List.not_mem_nil, or_false] at hz
      rcases hz with rfl | rfl <;> exact ⟨by decide, by decide⟩)
    ⟨le_refl _, by norm_num [dayStart], le_refl _, by norm_num [dayStart]⟩
    (fun hw => absurd hw (by decide))
  dsimp only at h
  obtain ⟨a1, _, _, _, hB⟩ := h
  have ho : (checkSchedule utc dayStart rndDevice).offset_on = -900 :=
    (a1 (by decide)).1.trans drawOffset_zero
  obtain ⟨_, _, hon0, _⟩ := hB [] dayStart [{ t := 29700, u1 := 1 / 2, u2 := 1 / 2 }] rfl
  obtain ⟨k1, _, hon1, _⟩ := hB [dayStart] { t := 29700, u1 := 1 / 2, u2 := 1 / 2 } [] rfl
  rw [ho] at hon0 hon1 k1
  have r0 : (scheduleRun utc rndDevice [dayStart]).state.RELAY = false := by
    have hiff := hon0 (by decide) (by decide) (by decide) (by decide) rfl
    cases hr : (checkSchedule utc dayStart (scheduleRun utc rndDevice [])).state.RELAY with
    | false => exact hr
    | true => exact absurd (hiff.1 hr).2.1 (by decide)
  refine ⟨by decide, rfl, ho, k1, r0, ?_⟩
  exact (hon1 (by decide) (by decide) (by decide) (by decide) r0).2
    ⟨by decide, by decide, by decide⟩

/-- An entry within 15 minutes of midnight can match at the other end of the day: with the
Thursday on-time 23:50 and the offset `-900 s`, the tick at 00:05:00 of that Thursday switches
the relay on (the local time of `300 - 900` is 23:50 of Wednesday), 23 h 45 min before the
configured instant `85800` of the day; the shifted instant `85800 + 900` is on Friday. -/
theorem checkSchedule_random_midnight :
    lateDevice.wday = 4 ∧ lateDevice.offset_on = -900 ∧ lateDevice.state.RELAY = false ∧
      utc 300 = { tm_wday := 4, tm_hour := 0, tm_min := 5 } ∧
      utc (300 + -900) = { tm_wday := 3, tm_hour := 23, tm_min := 50 } ∧
      (checkSchedule utc { t := 300, u1 := 0, u2 := 0 } lateDevice).state.RELAY = true ∧
      utc 85800 = { tm_wday := 4, tm_hour := 23, tm_min := 50 } ∧
      utc (85800 + 900) = { tm_wday := 5, tm_hour := 0, tm_min := 5 } := by
  decide

/-! ## Decoder: the sample frame of scenario S1 -/

theorem processPacket_vip (d : Device) (hc : checkSum d.packet = true)
    (hs : sync0 (rd d.packet 0)) :
    (processPacket d).voltage =
        (if (rd d.packet 20).testBit 6 = true ∧ (rd d.packet 0).testBit 3 = false then
          d.cfg.calibration.V * (field24 d.packet 2 : ℚ) / (field24 d.packet 5 : ℚ) else 0) ∧
      (processPacket d).power =
        (if (rd d.packet 20).testBit 4 = true ∧ (rd d.packet 0).testBit 1 = false then
          d.cfg.calibration.P * (field24 d.packet 14 : ℚ) / (field24 d.packet 17 : ℚ) else 0) ∧
      (processPacket d).current =
        (if ((rd d.packet 20).testBit 4 = true ∧ (rd d.packet 0).testBit 1 = false) ∧
            (rd d.packet 20).testBit 5 = true then
          d.cfg.calibration.I * (field24 d.packet 8 : ℚ) / (field24 d.packet 11 : ℚ) else 0) := by
  have hb := exceeded_testBit (rd d.packet 0) (rd_lt _ _) hs
  have hm := mask_testBit (rd d.packet 20) (rd_lt _ _)
  unfold processPacket
  simp only [hc, hb.2.2, H1_UNCALIBRATED, H1_ABNORMAL, H1_VOLTAGE_CYCLE_EXCEEDED,
    H1_POWER_CYCLE_EXCEEDED, ADJ_POWER_CYCLE_COMPLETE, ADJ_CURRENT_CYCLE_COMPLETE,
    ADJ_VOLTAGE_CYCLE_COMPLETE, hb.1, hb.2.1, hm.1, hm.2.1, hm.2.2, be24_field]
  rcases Bool.eq_false_or_eq_true ((rd d.packet 0).testBit 3) with h3 | h3 <;>
    rcases Bool.eq_false_or_eq_true ((rd d.packet 20).testBit 6) with h6 | h6 <;>
    rcases Bool.eq_false_or_eq_true ((rd d.packet 0).testBit 1) with h1 | h1 <;>
    rcases Bool.eq_false_or_eq_true ((rd d.packet 20).testBit 4) with h4 | h4 <;>
    rcases Bool.eq_false_or_eq_true ((rd d.packet 20).testBit 5) with h5 | h5 <;>
    simp [h3, h6, h1, h4, h5]

/-- C11 (amended). Decoding the frame
`55 5A 00 00 F0 00 00 10 00 00 80 00 00 20 00 50 60 00 00 40 70 00 01` followed by its
checksum `01`, with calibration `(1, 1, 1)`, yields `voltage = 0x0000F0 / 0x000010`
(bytes `[2..4]` over bytes `[5..7]`), `power = 0x005060 / 0x000040`, which is the value
`0x506000 / 0x004000`, `current = 0x000080 / 0x000020`, which is the value
`0x008000 / 0x002000`, and the pulse count 1 in the energy
`(ovflow * 65536 + 1 + restoredPulses) / ((10^9 / 0x5060) * 3600)`. -/
theorem processPacket_sampleFrame (d : Device) (hp : d.packet = frameOf sampleFrame)
    (hcal : d.cfg.calibration = { V := 1, I := 1, P := 1 }) :
    (processPacket d).voltage = 0x0000F0 / 0x000010 ∧
      (processPacket d).power = 0x005060 / 0x000040 ∧
      (processPacket d).power = 0x506000 / 0x004000 ∧
      (processPacket d).current = 0x000080 / 0x000020 ∧
      (processPacket d).current = 0x008000 / 0x002000 ∧
      field16 d.packet 21 = 1 ∧
      (processPacket d).energy =
        (((processPacket d).ovflow : ℚ) * 65536 + 1 + (d.restoredPulses : ℚ)) /
          (1000000000 / 0x5060 * 3600) := by
  have hc : checkSum d.packet = true := by rw [hp]; decide
  have hs : sync0 (rd d.packet 0) := by rw [hp]; exact Or.inl (by decide)
  obtain ⟨hv, hpw, hi⟩ := processPacket_vip d hc hs
  obtain ⟨_, _, he⟩ := processPacket_counters d hc hs
  have b6 : (rd d.packet 20).testBit 6 = true := by rw [hp]; decide
  have b4 : (rd d.packet 20).testBit 4 = true := by rw [hp]; decide
  have b5 : (rd d.packet 20).testBit 5 = true := by rw [hp]; decide
  have b3 : (rd d.packet 0).testBit 3 = false := by rw [hp]; decide
  have b1 : (rd d.packet 0).testBit 1 = false := by rw [hp]; decide
  have e2 : field24 d.packet 2 = 0xF0 := by rw [hp]; decide
  have e5 : field24 d.packet 5 = 0x10 := by rw [hp]; decide
  have e8 : field24 d.packet 8 = 0x80 := by rw [hp]; decide
  have e11 : field24 d.packet 11 = 0x20 := by rw [hp]; decide
  have e14 : field24 d.packet 14 = 0x5060 := by rw [hp]; decide
  have e17 : field24 d.packet 17 = 0x40 := by rw [hp]; decide
  have e21 : field16 d.packet 21 = 1 := by rw [hp]; decide
  rw [if_pos ⟨b6, b3⟩, hcal, e2, e5] at hv
  rw [if_pos ⟨b4, b1⟩, hcal, e14, e17] at hpw
  rw [if_pos ⟨⟨b4, b1⟩, b5⟩, hcal, e8, e11] at hi
  rw [e14, e21] at he
  refine ⟨?_, ?_, ?_, ?_, ?_, e21, ?_⟩
  · rw [hv]; norm_num
  · rw [hpw]; norm_num
  · rw [hpw]; norm_num
  · rw [hi]; norm_num
  · rw [hi]; norm_num
  · rw [he]; norm_num

/-- C11 fails as stated for the voltage: bytes `[5..7]` of the frame are `00 00 10`, so the
decoded voltage is `0xF0 / 0x10 = 15`, not `0x0000F0 / 0x001000`. -/
theorem processPacket_sampleFrame_voltage :
    sampleDevice.cfg.calibration.V = 1 ∧
      rd sampleDevice.packet 23 = ((List.range' 2 21).map (rd sampleDevice.packet)).sum % 256 ∧
      (processPacket sampleDevice).voltage = 15 ∧
      (processPacket sampleDevice).voltage ≠ 0x0000F0 / 0x001000 := by
  have hc : checkSum sampleDevice.packet = true := by decide
  have hs : sync0 (rd sampleDevice.packet 0) := Or.inl (by decide)
  have hv := (processPacket_vip sampleDevice hc hs).1
  rw [if_pos ⟨by decide, by decide⟩] at hv
  have e2 : field24 sampleDevice.packet 2 = 0xF0 := by decide
  have e5 : field24 sampleDevice.packet 5 = 0x10 := by decide
  have hV : sampleDevice.cfg.calibration.V = 1 := rfl
  rw [e2, e5, hV] at hv
  have h15 : (processPacket sampleDevice).voltage = 15 := by rw [hv]; norm_num
  refine ⟨rfl, by decide, h15, ?_⟩
  rw [h15]
  norm_num

/-- Witness of C11 (amended): the reset device with calibration `(1, 1, 1)` and the frame in
its buffer. -/
theorem processPacket_sampleFrame_witness :
    sampleDevice.packet = frameOf sampleFrame ∧
      sampleDevice.cfg.calibration = { V := 1, I := 1, P := 1 } ∧
      (processPacket sampleDevice).voltage = 0x0000F0 / 0x000010 ∧
      (processPacket sampleDevice).power = 0x005060 / 0x000040 ∧
      (processPacket sampleDevice).current = 0x000080 / 0x000020 :=
  have h := processPacket_sampleFrame sampleDevice rfl rfl
  ⟨rfl, rfl, h.1, h.2.1, h.2.2.2.1⟩

/-! ## NV store: a ring of capacity 3 -/

/-- C12 (amended). With ring capacity `N = 3`, appending five entries `e1..e5` to an empty
ring with the `saveNvLog` index update and then reading with the `handleNvData` iteration
yields exactly `e4, e5`, in that order (the last `N - 1` entries). -/
theorem ring_three_five (crc16 : List Nat → Nat) (d : Device)
    (hntp : d.state.NTP_GOT_TIME = true) (hf : d.nvHeader.nvLogFirst = 0)
    (hl : d.nvHeader.nvLogLast = 0) (s1 s2 s3 s4 s5 : Sample) :
    handleNvData 3 (appendLogs crc16 3 d [s1, s2, s3, s4, s5]) = [logEntry s4, logEntry s5] := by
  have hinv := ringInv_appendLogs crc16 3 (by decide) (by decide) d hntp hf hl
    [s1, s2, s3, s4, s5]
  have hread := readLoop_drop 3 (by decide) _ _ hinv 2 0 rfl
  unfold handleNvData
  rw [hread]
  rfl

/-- C12 fails as stated: after five appends to a ring of capacity 3 the header has
`nvLogFirst = 0`, `nvLogLast = 2` and the read-out yields the two entries `e4, e5`, not
the three entries `e3, e4, e5`. -/
theorem ring_three_five_loses_e3 :
    (appendLogs ccitt 3 runningDevice
        [sampleAt 10 1, sampleAt 20 2, sampleAt 30 3, sampleAt 40 4,
          sampleAt 50 5]).nvHeader.nvLogFirst = 0 ∧
      (appendLogs ccitt 3 runningDevice
        [sampleAt 10 1, sampleAt 20 2, sampleAt 30 3, sampleAt 40 4,
          sampleAt 50 5]).nvHeader.nvLogLast = 2 ∧
      handleNvData 3 (appendLogs ccitt 3 runningDevice
        [sampleAt 10 1, sampleAt 20 2, sampleAt 30 3, sampleAt 40 4, sampleAt 50 5]) =
        [logEntry (sampleAt 40 4), logEntry (sampleAt 50 5)] ∧
      handleNvData 3 (appendLogs ccitt 3 runningDevice
        [sampleAt 10 1, sampleAt 20 2, sampleAt 30 3, sampleAt 40 4, sampleAt 50 5]) ≠
        [logEntry (sampleAt 30 3), logEntry (sampleAt 40 4), logEntry (sampleAt 50 5)] := by
  have hinv := ringInv_appendLogs ccitt 3 (by decide) (by decide) runningDevice rfl rfl rfl
    [sampleAt 10 1, sampleAt 20 2, sampleAt 30 3, sampleAt 40 4, sampleAt 50 5]
  have hread := readLoop_drop 3 (by decide) _ _ hinv 2 0 rfl
  have h : handleNvData 3 (appendLogs ccitt 3 runningDevice
      [sampleAt 10 1, sampleAt 20 2, sampleAt 30 3, sampleAt 40 4, sampleAt 50 5]) =
      [logEntry (sampleAt 40 4), logEntry (sampleAt 50 5)] := by
    unfold handleNvData
    rw [hread]
    rfl
  refine ⟨hinv.2.2.1, hinv.2.1, h, ?_⟩
  rw [h]
  intro hc
  exact absurd (congrArg List.length hc) (by decide)

/-- Witness of C12 (amended), on `runningDevice`. -/
theorem ring_three_five_witness :
    runningDevice.state.NTP_GOT_TIME = true ∧ runningDevice.nvHeader.nvLogFirst = 0 ∧
      runningDevice.nvHeader.nvLogLast = 0 ∧
      handleNvData 3 (appendLogs ccitt 3 runningDevice
        [sampleAt 10 1, sampleAt 20 2, sampleAt 30 3, sampleAt 40 4, sampleAt 50 5]) =
        [logEntry (sampleAt 40 4), logEntry (sampleAt 50 5)] :=
  ⟨rfl, rfl, rfl, ring_three_five ccitt runningDevice rfl rfl rfl (sampleAt 10 1)
    (sampleAt 20 2) (sampleAt 30 3) (sampleAt 40 4) (sampleAt 50 5)⟩

/-! ## Scheduler: a day with offsets -/

theorem utc_on_window (t : Int) (h0 : 0 ≤ t) (h1 : t < 86400) :
    ((utc (t + -300)).tm_hour = 8 ∧ (utc (t + -300)).tm_min = 0) ↔ (29100 ≤ t ∧ t < 29160) := by
  simp only [utc]
  omega

theorem utc_off_window (t : Int) (h0 : 0 ≤ t) (h1 : t < 86400) :
    ((utc (t + 600)).tm_hour = 22 ∧ (utc (t + 600)).tm_min = 0) ↔ (78600 ≤ t ∧ t < 78660) := by
  simp only [utc]
  omega

/-- C13 (amended). For a day schedule {on 08:00 enabled, off 22:00 enabled, randomize set}
with daily offsets `offset_on = -300 s` and `offset_off = +600 s` (timezone UTC, a Thursday),
a tick at wall time `t` of that day turns the relay on exactly when `t` is in the minute
08:05 and turns it off exactly when `t` is in the minute 21:50: `checkSchedule` compares
the configured time with the local time of `t + offset`. -/
theorem checkSchedule_jitter_day (d : Device) (t : Int) (u1 u2 : ℚ)
    (hen : d.cfg.flags &&& CFG_SCHEDULE ≠ 0)
    (hsch : d.cfg.schedule 4 =
      { flags := SCHED_ON_ENABLED ||| SCHED_OFF_ENABLED ||| SCHED_RANDOM, h_on := 8, m_on := 0,
        h_off := 22, m_off := 0 })
    (hw : d.wday = 4) (hon : d.offset_on = -300) (hoff : d.offset_off = 600)
    (h0 : 0 ≤ t) (h1 : t < 86400) :
    (d.state.RELAY = false →
        ((checkSchedule utc { t := t, u1 := u1, u2 := u2 } d).state.RELAY = true ↔
          (29100 ≤ t ∧ t < 29160))) ∧
      (d.state.RELAY = true →
        ((checkSchedule utc { t := t, u1 := u1, u2 := u2 } d).state.RELAY = false ↔
          (78600 ≤ t ∧ t < 78660))) ∧
      (checkSchedule utc { t := t, u1 := u1, u2 := u2 } d).offset_on = -300 ∧
      (checkSchedule utc { t := t, u1 := u1, u2 := u2 } d).offset_off = 600 := by
  have hday : (utc t).tm_wday = 4 := utc_thursday t h0 h1
  obtain ⟨g1, g2, g3⟩ := checkSchedule_random utc { t := t, u1 := u1, u2 := u2 } d hen
    (by show (utc t).tm_wday < 7; omega)
    (by show (d.cfg.schedule (utc t).tm_wday).flags &&& SCHED_RANDOM ≠ 0
        rw [hday, hsch]; decide)
  have hsame : ¬ d.wday ≠ (utc t).tm_wday := by rw [hw, hday]; exact not_not.2 rfl
  simp only [if_neg hsame, hon, hoff] at g1 g2
  rw [g1, g2] at g3
  simp only [hday, hsch] at g3
  have hwon := utc_on_window t h0 h1
  have hwoff := utc_off_window t h0 h1
  refine ⟨fun hr => ?_, fun hr => ?_, g1, g2⟩
  · rw [g3, hr, ← hwon]
    simp [relayStep, onMatch, SCHED_ON_ENABLED, SCHED_OFF_ENABLED, SCHED_RANDOM]
  · rw [g3, hr, ← hwoff]
    simp [relayStep, offMatch, SCHED_ON_ENABLED, SCHED_OFF_ENABLED, SCHED_RANDOM]

/-- C13 fails as stated: with `offset_on = -300 s` the tick at 07:55:00 leaves the relay off
and the tick at 08:05:00 turns it on; with `offset_off = +600 s` the tick at 22:10:00
leaves the relay on and the tick at 21:50:00 turns it off. -/
theorem checkSchedule_jitter_mirrored :
    jitterDevice.offset_on = -300 ∧ jitterDevice.offset_off = 600 ∧
      utc 28500 = { tm_wday := 4, tm_hour := 7, tm_min := 55 } ∧
      (checkSchedule utc { t := 28500, u1 := 0, u2 := 0 } jitterDevice).state.RELAY = false ∧
      utc 29100 = { tm_wday := 4, tm_hour := 8, tm_min := 5 } ∧
      (checkSchedule utc { t := 29100, u1 := 0, u2 := 0 } jitterDevice).state.RELAY = true ∧
      utc 79800 = { tm_wday := 4, tm_hour := 22, tm_min := 10 } ∧
      (checkSchedule utc { t := 79800, u1 := 0, u2 := 0 } jitterDeviceOn).state.RELAY = true ∧
      utc 78600 = { tm_wday := 4, tm_hour := 21, tm_min := 50 } ∧
      (checkSchedule utc { t := 78600, u1 := 0, u2 := 0 } jitterDeviceOn).state.RELAY = false := by
  decide

/-- Witness of C13 (amended): the tick at 08:05:00 UTC turns the relay of `jitterDevice` on. -/
theorem checkSchedule_jitter_day_witness :
    jitterDevice.state.RELAY = false ∧
      (checkSchedule utc { t := 29100, u1 := 0, u2 := 0 } jitterDevice).state.RELAY = true ∧
      (checkSchedule utc { t := 29100, u1 := 0, u2 := 0 } jitterDevice).offset_on = -300 :=
  have h := checkSchedule_jitter_day jitterDevice 29100 0 0 (by decide) rfl rfl rfl rfl
    (by decide) (by decide)
  ⟨rfl, (h.1 rfl).2 ⟨by decide, by decide⟩, h.2.2.1⟩

/-! ## Button and relay (`main.cpp`: `buttonCheck`, `resetConfig`) -/

theorem buttonCheck_fields (b : Bool) (d : Device) :
    (buttonCheck b d).1.count = (if b then 0 else d.count + 1) ∧
      (buttonCheck b d).2 = (!b && decide (100 ≤ d.count + 1)) ∧
      (buttonCheck b d).1.state.DEBOUNCE_TIMEOUT = b ∧
      (buttonCheck b d).1.state.RELAY =
        (if !b && d.state.DEBOUNCE_TIMEOUT then !d.state.RELAY else d.state.RELAY) := by
  unfold buttonCheck resetConfig
  cases b <;> cases hdb : d.state.DEBOUNCE_TIMEOUT <;>
    by_cases hc : 100 ≤ d.count + 1 <;>
    simp [hdb, hc, BUTTON_TIMEOUT, BUTTON_PERIOD]

theorem buttonRun_snoc (d : Device) (pre : List Bool) (b : Bool) :
    buttonRun d (pre ++ [b]) = (buttonCheck b (buttonRun d pre)).1 := by
  simp [buttonRun, List.foldl_append]

/-- C14 (amended). For every sequence of button samples fed to `buttonCheck`, the relay flag
is toggled (and `DEBOUNCE_TIMEOUT` cleared) on a tick where the button reads pressed while
`DEBOUNCE_TIMEOUT` is set, that is on the first pressed tick after a released one, and on
no tick where the button reads released; every tick on which the button reads released
leaves `DEBOUNCE_TIMEOUT` set, and after any tick the flag is set exactly when that tick
read released. -/
theorem buttonCheck_toggle (d : Device) (pre : List Bool) (b : Bool) :
    (b = false → (buttonRun d pre).state.DEBOUNCE_TIMEOUT = true →
        (buttonCheck b (buttonRun d pre)).1.state.RELAY = !(buttonRun d pre).state.RELAY ∧
          (buttonCheck b (buttonRun d pre)).1.state.DEBOUNCE_TIMEOUT = false) ∧
      (b = false → (buttonRun d pre).state.DEBOUNCE_TIMEOUT = false →
        (buttonCheck b (buttonRun d pre)).1.state.RELAY = (buttonRun d pre).state.RELAY ∧
          (buttonCheck b (buttonRun d pre)).1.state.DEBOUNCE_TIMEOUT = false) ∧
      (b = true →
        (buttonCheck b (buttonRun d pre)).1.state.RELAY = (buttonRun d pre).state.RELAY ∧
          (buttonCheck b (buttonRun d pre)).1.state.DEBOUNCE_TIMEOUT = true) ∧
      (∀ a, pre.getLast? = some a → (buttonRun d pre).state.DEBOUNCE_TIMEOUT = a) := by
  obtain ⟨_, _, hdb, hrel⟩ := buttonCheck_fields b (buttonRun d pre)
  refine ⟨fun hb hs => ?_, fun hb hs => ?_, fun hb => ?_, fun a ha => ?_⟩
  · rw [hrel, hdb, hb, hs]
    exact ⟨rfl, rfl⟩
  · rw [hrel, hdb, hb, hs]
    exact ⟨rfl, rfl⟩
  · rw [hrel, hdb, hb]
    exact ⟨rfl, rfl⟩
  · rcases List.eq_nil_or_concat pre with hnil | ⟨xs, x, hx⟩
    · rw [hnil] at ha
      exact absurd ha (by simp)
    · rw [hx, List.concat_eq_append] at ha ⊢
      rw [List.getLast?_concat] at ha
      rw [buttonRun_snoc, (buttonCheck_fields x _).2.2.1]
      exact Option.some.inj ha

/-- C14 fails as stated: from the armed state (`DEBOUNCE_TIMEOUT` set, relay off) a pressed
sample toggles the relay on, and the released sample that follows the press leaves the
relay as it is. -/
theorem buttonCheck_toggles_on_press :
    armedDevice.state.DEBOUNCE_TIMEOUT = true ∧ armedDevice.state.RELAY = false ∧
      (buttonCheck false armedDevice).1.state.RELAY = true ∧
      (buttonCheck false armedDevice).1.state.DEBOUNCE_TIMEOUT = false ∧
      (buttonCheck true (buttonCheck false armedDevice).1).1.state.RELAY = true := by
  decide

/-- Witness of C14 (amended): released, then pressed toggles; pressed again does not. -/
theorem buttonCheck_toggle_witness :
    (buttonRun initDevice [true]).state.DEBOUNCE_TIMEOUT = true ∧
      (buttonCheck false (buttonRun initDevice [true])).1.state.RELAY =
        !(buttonRun initDevice [true]).state.RELAY ∧
      (buttonRun initDevice [true, false]).state.DEBOUNCE_TIMEOUT = false ∧
      (buttonCheck false (buttonRun initDevice [true, false])).1.state.RELAY =
        (buttonRun initDevice [true, false]).state.RELAY :=
  ⟨(buttonCheck_toggle initDevice [true] false).2.2.2 true rfl,
    ((buttonCheck_toggle initDevice [true] false).1 rfl (by decide)).1,
    (buttonCheck_toggle initDevice [true, false] false).2.2.2 false rfl,
    ((buttonCheck_toggle initDevice [true, false] false).2.1 rfl (by decide)).1⟩

theorem resetTrace_iff (samples : List Bool) : ∀ (d : Device) (i : Nat),
    (resetTrace d samples)[i]? = some true ↔
      ((∀ j, j ≤ i → i < j + 100 → samples[j]? = some false) ∧ 100 ≤ i + 1 + d.count) := by
  induction samples with
  | nil =>
    intro d i
    simp only [resetTrace, List.getElem?_nil]
    constructor
    · intro h
      exact absurd h (by simp)
    · intro h
      exact absurd (h.1 i (Nat.le_refl _) (by omega)) (by simp)
  | cons b rest ih =>
    intro d i
    obtain ⟨hcount, hreset, _, _⟩ := buttonCheck_fields b d
    cases i with
    | zero =>
      simp only [resetTrace, List.getElem?_cons_zero, Option.some.injEq, hreset]
      constructor
      · intro h
        simp only [Bool.and_eq_true, Bool.not_eq_true', decide_eq_true_eq] at h
        refine ⟨fun j hj _ => ?_, by omega⟩
        have : j = 0 := by omega
        subst this
        simp [h.1]
      · intro h
        have h0 := h.1 0 (Nat.le_refl _) (by omega)
        simp only [List.getElem?_cons_zero, Option.some.injEq] at h0
        simp only [Bool.and_eq_true, Bool.not_eq_true', decide_eq_true_eq]
        exact ⟨h0, by omega⟩
    | succ k =>
      simp only [resetTrace, List.getElem?_cons_succ]
      rw [ih (buttonCheck b d).1 k, hcount]
      constructor
      · rintro ⟨hw, hc⟩
        cases b with
        | true =>
          simp only [if_true] at hc
          refine ⟨fun j hj1 hj2 => ?_, by omega⟩
          cases j with
          | zero => omega
          | succ j' =>
            simp only [List.getElem?_cons_succ]
            exact hw j' (by omega) (by omega)
        | false =>
          simp only [Bool.false_eq_true, if_false] at hc
          refine ⟨fun j hj1 hj2 => ?_, by omega⟩
          cases j with
          | zero => simp
          | succ j' =>
            simp only [List.getElem?_cons_succ]
            exact hw j' (by omega) (by omega)
      · rintro ⟨hw, hc⟩
        have hrest : ∀ j, j ≤ k → k < j + 100 → rest[j]? = some false := by
          intro j hj1 hj2
          have := hw (j + 1) (by omega) (by omega)
          simpa only [List.getElem?_cons_succ] using this
        refine ⟨hrest, ?_⟩
        cases b with
        | true =>
          simp only [if_true]
          by_contra hlt
          have h0 := hw 0 (by omega) (by omega)
          simp at h0
        | false =>
          simp only [Bool.false_eq_true, if_false]
          omega

/-- C15. For every sequence of button samples starting from `count = 0` (shorter than
`2^31`, the range of the `int` counter), `buttonCheck` invokes `resetConfig` on tick `i` if
and only if that tick and the 99 samples immediately before it all read pressed; a released
sample resets the count to 0, and a pressed one adds 1. -/
theorem buttonCheck_long_press (d : Device) (samples : List Bool) (i : Nat)
    (hcount : d.count = 0) (_hlen : samples.length < 2147483648) :
    ((resetTrace d samples)[i]? = some true ↔
        (100 ≤ i + 1 ∧ ∀ j, j ≤ i → i < j + 100 → samples[j]? = some false)) ∧
      (∀ s : Device, (buttonCheck true s).1.count = 0 ∧ (buttonCheck true s).2 = false) ∧
      (∀ s : Device, (buttonCheck false s).1.count = s.count + 1) := by
  refine ⟨?_, fun s => ?_, fun s => ?_⟩
  · rw [resetTrace_iff samples d i, hcount]
    constructor
    · rintro ⟨h1, h2⟩
      exact ⟨by omega, h1⟩
    · rintro ⟨h1, h2⟩
      exact ⟨h2, by omega⟩
  · obtain ⟨h1, h2, _, _⟩ := buttonCheck_fields true s
    exact ⟨by rw [h1]; rfl, by rw [h2]; rfl⟩
  · obtain ⟨h1, _, _, _⟩ := buttonCheck_fields false s
    rw [h1]
    rfl

/-- Witness of C15: 100 pressed samples invoke the reset on the 100th tick and not on the
99th; a released sample in between prevents it. -/
theorem buttonCheck_long_press_witness :
    initDevice.count = 0 ∧
      (resetTrace initDevice (List.replicate 100 false))[99]? = some true ∧
      ¬ (resetTrace initDevice (List.replicate 100 false))[98]? = some true ∧
      ¬ (resetTrace initDevice
        (List.replicate 50 false ++ [true] ++ List.replicate 99 false))[149]? = some true := by
  have h1 := (buttonCheck_long_press initDevice (List.replicate 100 false) 99 rfl
    (by decide)).1
  have h2 := (buttonCheck_long_press initDevice (List.replicate 100 false) 98 rfl
    (by decide)).1
  have h3 := (buttonCheck_long_press initDevice
    (List.replicate 50 false ++ [true] ++ List.replicate 99 false) 149 rfl (by decide)).1
  refine ⟨rfl, h1.2 ⟨by decide, ?_⟩, fun h => ?_, fun h => ?_⟩
  · intro j hj1 _
    rw [List.getElem?_replicate, if_pos (by omega)]
  · exact absurd (h2.1 h).1 (by decide)
  · have := (h3.1 h).2 50 (by decide) (by decide)
    exact absurd this (by decide)

/-! ## Firmware update start (`main.cpp`: the `ArduinoOTA.onStart` handler of `setup`) -/

theorem headerOfBytes_counters (h : nvHeader) :
    (headerOfBytes (headerBytes h)).ovflow = h.ovflow % 4294967296 ∧
      (headerOfBytes (headerBytes h)).pulses = h.pulses % 65536 := by
  simp only [headerOfBytes, headerBytes, u16le, u32le, List.getD_cons_zero,
    List.getD_cons_succ, List.cons_append, List.nil_append]
  omega

/-- C16, evaluation of the code: the `onStart` handler never reaches `saveNvHeader`. For
every update command and every device state the FRAM and the in-memory header are left as
they were (only `STATE_OTA_OR_REBOOT` is set), whereas `handleReboot` with the FRAM present
writes the header image. On `unflushedDevice` with `U_FLASH` or `U_FS` the header bytes in
FRAM stay all zero, while the reboot path stores `ovflow = 7`, `pulses = 1234`. -/
theorem onStart_no_flush (crc16 : List Nat → Nat) (cmd : Nat) (d : Device) :
    (onStart crc16 cmd d).fram = d.fram ∧ (onStart crc16 cmd d).nvHeader = d.nvHeader ∧
      (onStart crc16 cmd d).state.OTA_OR_REBOOT = true ∧
      unflushedDevice.state.FRAM_PRESENT = true ∧
      framRead (onStart crc16 U_FLASH unflushedDevice).fram 0 16 = List.replicate 16 0 ∧
      framRead (onStart crc16 U_FS unflushedDevice).fram 0 16 = List.replicate 16 0 ∧
      (headerOfBytes (framRead (handleReboot crc16 unflushedDevice).fram 0 16)).ovflow = 7 ∧
      (headerOfBytes (framRead (handleReboot crc16 unflushedDevice).fram 0 16)).pulses =
        1234 := by
  have hgen : ∀ (c : Nat) (s : Device), (onStart crc16 c s).fram = s.fram ∧
      (onStart crc16 c s).nvHeader = s.nvHeader ∧
      (onStart crc16 c s).state.OTA_OR_REBOOT = true := by
    intro c s
    have hl : onStartLabel c = some 0 ∨ onStartLabel c = some 1 ∨ onStartLabel c = none := by
      unfold onStartLabel
      split
      · exact Or.inl rfl
      · split
        · exact Or.inr (Or.inl rfl)
        · exact Or.inr (Or.inr rfl)
    unfold onStart
    rcases hl with h | h | h <;> rw [h] <;> exact ⟨rfl, rfl, rfl⟩
  have hre : framRead (handleReboot crc16 unflushedDevice).fram 0 16 =
      headerBytes (handleReboot crc16 unflushedDevice).nvHeader := by
    unfold handleReboot
    simp only [unflushedDevice, runningDevice, if_true]
    exact saveNvHeader_fram crc16 _
  refine ⟨(hgen cmd d).1, (hgen cmd d).2.1, (hgen cmd d).2.2, rfl, ?_, ?_, ?_, ?_⟩
  · rw [(hgen U_FLASH unflushedDevice).1]
    rfl
  · rw [(hgen U_FS unflushedDevice).1]
    rfl
  · rw [hre, (headerOfBytes_counters _).1]
    have : (handleReboot crc16 unflushedDevice).nvHeader.ovflow = 7 := rfl
    rw [this]
  · rw [hre, (headerOfBytes_counters _).2]
    have : (handleReboot crc16 unflushedDevice).nvHeader.pulses = 1234 := rfl
    rw [this]

/-! ## Configuration save (`main.cpp`: `handleSave`) -/

/-- C17, evaluation of the code at the failing input: the configuration strings are
NUL-terminated before the request; after `handleSave` with a 32-character `name` and no
`ssid` the 32 bytes of `hostname` are all `a`, without a NUL, and `ssid`, absent from the
form, has lost its characters from index 31 on (`cfg.ssid[STR32 - 1] = 0`). -/
theorem handleSave_long_name :
    (0 ∈ longSsidDevice.cfg.hostname ∧ 0 ∈ longSsidDevice.cfg.ssid ∧
        0 ∈ longSsidDevice.cfg.psk) ∧
      (handleSave longNameForm longSsidDevice).cfg.hostname = List.replicate 32 0x61 ∧
      (handleSave longNameForm longSsidDevice).cfg.hostname.length = 32 ∧
      0 ∉ (handleSave longNameForm longSsidDevice).cfg.hostname ∧
      longNameForm.ssid = none ∧
      (handleSave longNameForm longSsidDevice).cfg.ssid ≠ longSsidDevice.cfg.ssid ∧
      cstr (handleSave longNameForm longSsidDevice).cfg.ssid = List.replicate 31 0x73 := by
  decide

/-! ## Decoder: error codes -/

theorem processPacket_err (d : Device) (hc : checkSum d.packet = true)
    (hs : sync0 (rd d.packet 0)) : (processPacket d).err = d.err := by
  have hb := exceeded_testBit (rd d.packet 0) (rd_lt _ _) hs
  unfold processPacket
  simp only [hc, hb.2.2, H1_UNCALIBRATED]
  simp

theorem decode_valid_err (d : Device) (h : d.index = 24) (hc : checkSum d.packet = true)
    (hs : sync0 (rd d.packet 0)) : (decode d).err = CSE_ERROR_OK := by
  unfold decode
  rw [if_pos h]
  exact processPacket_err { d with err := CSE_ERROR_OK } hc hs

/-- C18. Over any byte stream and any sequence of `readCse7759b` calls from reset, the
error code left in `err` is `CSE_ERROR_OTHER` when the call completed no frame, and
`CSE_ERROR_OK` or `CSE_ERROR_CRC` (according to the checksum) when it completed one; it is
never `CSE_ERROR_CALIBRATION`, because byte 0 of a completed buffer passed the sync filter
and so is not `0xAA`. -/
theorem readCse7759b_err (d0 : Device) (pending : List Nat) (chunks : List (List Nat))
    (serial : List Nat) (h0 : d0.index = 0) :
    let d := (runCse d0 pending chunks).1
    let buf := drain d.index d.packet serial
    let d1 := (readCse7759b d serial).1
    (d1.err = CSE_ERROR_OTHER ∨ d1.err = CSE_ERROR_OK ∨ d1.err = CSE_ERROR_CRC) ∧
      d1.err ≠ CSE_ERROR_CALIBRATION ∧
      (buf.1 ≠ 24 → d1.err = CSE_ERROR_OTHER) ∧
      (buf.1 = 24 → checkSum buf.2.1 = true → d1.err = CSE_ERROR_OK) ∧
      (buf.1 = 24 → checkSum buf.2.1 = false → d1.err = CSE_ERROR_CRC) ∧
      (buf.1 = 24 → rd buf.2.1 0 ≠ H1_UNCALIBRATED) := by
  intro d buf d1
  have hreach := runCse_inv chunks d0 pending (by omega)
    ⟨by intro h; omega, by intro h; omega⟩
  have hbuf := drain_inv serial d.index d.packet hreach.1 hreach.2
  have hd1 : d1 = accumulate (decode (receive d serial)) := readCse7759b_stages d serial
  have hacc : d1.err = (decode (receive d serial)).err := by
    rw [hd1]
    exact (accumulate_sameReadings _).2
  have hno : buf.1 ≠ 24 → d1.err = CSE_ERROR_OTHER := by
    intro h
    rw [hacc]
    unfold decode
    rw [if_neg (show ¬ (receive d serial).index = 24 from h)]
    rfl
  have hsync : buf.1 = 24 → sync0 (rd buf.2.1 0) := fun h =>
    hbuf.2.1 (by show 1 ≤ buf.1; omega)
  have hok : buf.1 = 24 → checkSum buf.2.1 = true → d1.err = CSE_ERROR_OK := by
    intro h hc
    rw [hacc]
    exact decode_valid_err (receive d serial) h hc (hsync h)
  have hcrc : buf.1 = 24 → checkSum buf.2.1 = false → d1.err = CSE_ERROR_CRC := by
    intro h hc
    rw [hacc, decode_bad_checksum (receive d serial) h hc]
  have hall : d1.err = CSE_ERROR_OTHER ∨ d1.err = CSE_ERROR_OK ∨ d1.err = CSE_ERROR_CRC := by
    by_cases h : buf.1 = 24
    · rcases Bool.eq_false_or_eq_true (checkSum buf.2.1) with hc | hc
      · exact Or.inr (Or.inl (hok h hc))
      · exact Or.inr (Or.inr (hcrc h hc))
    · exact Or.inl (hno h)
  refine ⟨hall, ?_, hno, hok, hcrc, fun h => ?_⟩
  · rcases hall with h | h | h <;> rw [h] <;> decide
  · have := hsync h
    unfold sync0 at this
    unfold H1_UNCALIBRATED
    omega

/-- Witness of C18: from reset, `sampleFrame` leaves `err = CSE_ERROR_OK`; the same bytes
with header `0xAA` are skipped by the sync filter and leave `err = CSE_ERROR_OTHER`. -/
theorem readCse7759b_err_witness :
    initDevice.index = 0 ∧
      (readCse7759b initDevice sampleFrame).1.err = CSE_ERROR_OK ∧
      (drain initDevice.index initDevice.packet uncalibratedFrame).1 ≠ 24 ∧
      (readCse7759b initDevice uncalibratedFrame).1.err = CSE_ERROR_OTHER := by
  have h1 := readCse7759b_err initDevice [] [] sampleFrame rfl
  have h2 := readCse7759b_err initDevice [] [] uncalibratedFrame rfl
  dsimp only at h1 h2
  have hne : (drain initDevice.index initDevice.packet uncalibratedFrame).1 ≠ 24 := by decide
  exact ⟨rfl, h1.2.2.2.1 (by decide) (by decide), hne, h2.2.2.1 hne⟩

/-! ## The averaging accumulator (`readCse7759b`, `saveNvLog`) -/

end S31
